import Mathlib

/-!
Shallow embedding of the footnote engine of dp2ppgen (dp2ppgen/dp2ppgen.py)
and verification of its specified properties.

Lines are modelled as lists of characters (`Line`), buffers as lists of lines.
Python runtime failures (IndexError, TypeError, UnboundLocalError, `fatal`
exits and infinite loops) are modelled with an explicit error type `PyErr`;
messages produced by `logging.error` are accumulated in order in a
`List LogErr` (payloads are reduced to the data identifying the event).
Python while-loops are modelled as fuel-indexed recursions; every top-level
wrapper passes enough fuel for all terminating executions, so running out of
fuel only happens where the Python loop itself does not terminate
(`PyErr.diverge`).
-/

abbrev Line := List Char

def strL (s : String) : Line := s.toList

/-- Python regex `\w` on ASCII input: `[A-Za-z0-9_]`. -/
def isWordChar (c : Char) : Bool := c.isAlphanum || c == '_'

/-- Python regex `\s` on ASCII input. -/
def isPySpace (c : Char) : Bool :=
  c == ' ' || c == '\t' || c == '\n' || c == '\x0b' || c == '\x0c' || c == '\r'

def startsWithL (pat s : Line) : Bool := pat.isPrefixOf s

def endsWithL (pat s : Line) : Bool := pat.reverse.isPrefixOf s.reverse

/-- Python list index semantics: negative indices wrap around; out-of-range
gives `none` (an IndexError at the call site). -/
def pyIdx (len : Nat) (t : Int) : Option Nat :=
  if 0 ≤ t then (if t < len then some t.toNat else none)
  else (if 0 ≤ t + len then some (t + len).toNat else none)

/-- Index normalization used by Python `list.insert` and slice bounds. -/
def pyNorm (len : Nat) (i : Int) : Nat :=
  if i < 0 then (i + len).toNat else min i.toNat len

def insertLinesAt (n : Nat) (xs l : List Line) : List Line :=
  l.take n ++ xs ++ l.drop n

/-- `buf[i:j] = xs` for already-normalized `Nat` bounds. -/
def pySliceReplace (buf : List Line) (s e : Nat) (xs : List Line) : List Line :=
  let s2 := min s buf.length
  let e2 := min e buf.length
  buf.take s2 ++ xs ++ buf.drop (max s2 e2)

/-- Python string `s.split(' ', 1)`: the first word and, when a space was
found, the remainder after that first space. -/
def pySplit1 (s : Line) : Line × Option Line :=
  let w := s.takeWhile (fun c => c ≠ ' ')
  if w.length = s.length then (s, none) else (w, some (s.drop (w.length + 1)))

/-- `re.sub` / `re.search` with a literal pattern replace/match every
non-overlapping occurrence, scanning left to right.  Fuel variant; the
wrapper always supplies enough fuel. -/
def pyReSubAllF : Nat → Line → Line → Line → Line
  | 0, _, _, s => s
  | _ + 1, _, _, [] => []
  | fuel + 1, pat, repl, c :: rest =>
    if pat ≠ [] ∧ pat.isPrefixOf (c :: rest) then
      repl ++ pyReSubAllF fuel pat repl ((c :: rest).drop pat.length)
    else c :: pyReSubAllF fuel pat repl rest

def pyReSubAll (pat repl s : Line) : Line := pyReSubAllF (s.length + 1) pat repl s

/-- Python runtime failure, aborting the current pass. -/
inductive PyErr where
  | unboundLocal (name : String)
  | indexError
  | typeError
  | fatal
  | diverge
deriving Repr, DecidableEq

/-- One `logging.error` event of the footnote engine (payload reduced to the
identifying data). -/
inductive LogErr where
  | unresolvedJoin
  | joinFailed
  | unresolvedHyphen
  | unmatchedAnchor (anchor : Line)
  | duplicateAnchors (anchor : Line)
  | anchorCountMismatch
  | unrecognizedFndest (dest : String)
  | unrecognizedLzdestt (dest : String)
  | unrecognizedLzdesth (dest : String)
deriving Repr, DecidableEq

/-- `re.match(r"(\w+\.(png|jpg|jpeg))", s)`: a maximal run of word characters,
a dot, then one of the three extensions (tried in that order); trailing text
is allowed.  Returns the captured group. -/
def matchPageId (s : Line) : Option Line :=
  let w := s.takeWhile isWordChar
  if w = [] then none
  else
    match s.drop w.length with
    | '.' :: rest2 =>
      if strL "png" = rest2.take 3 then some (w ++ strL ".png")
      else if strL "jpg" = rest2.take 3 then some (w ++ strL ".jpg")
      else if strL "jpeg" = rest2.take 4 then some (w ++ strL ".jpeg")
      else none
    | _ => none

/-- dp2ppgen.parseScanPage: recognizes the three page-break sentinel forms.
The source runs the three `re.match` calls in order and keeps the last hit;
the prefixes are mutually exclusive, so the priority order is `.bn `, `// `,
`-----File: `. -/
def parseScanPage (line : Line) : Option Line :=
  let m1 := if startsWithL (strL "-----File: ") line then matchPageId (line.drop 11) else none
  let m2 := if startsWithL (strL "// ") line then matchPageId (line.drop 3) else none
  let m3 := if startsWithL (strL ".bn ") line then matchPageId (line.drop 4) else none
  match m3 with
  | some p => some p
  | none => match m2 with
    | some p => some p
    | none => m1

/-- dp2ppgen.isLineBlank: `re.match(r"\s*$", line)`. -/
def isLineBlank (line : Line) : Bool := line.all isPySpace

def isLinePageBreak (line : Line) : Bool := (parseScanPage line).isSome

/-- First alternative of the isLineOriginalText regex: `\.[a-z0-9]{2} `. -/
def startsDotCmdSpace (l : Line) : Bool :=
  match l with
  | '.' :: a :: b :: ' ' :: _ =>
    (a.isDigit || (('a' ≤ a) ∧ (a ≤ 'z'))) && (b.isDigit || (('a' ≤ b) ∧ (b ≤ 'z')))
  | _ => false

/-- Alternative `\*?\[\w+` of the isLineOriginalText regex. -/
def startsDpBracket (l : Line) : Bool :=
  match l with
  | '*' :: '[' :: c :: _ => isWordChar c
  | '[' :: c :: _ => isWordChar c
  | _ => false

/-- dp2ppgen.isLineOriginalText. -/
def isLineOriginalText (l : Line) : Bool :=
  !(startsDotCmdSpace l || startsWithL (strL "*/") l || startsWithL (strL "#/") l ||
    startsWithL (strL "/*") l || startsWithL (strL "/#") l || startsDpBracket l ||
    startsWithL (strL "//") l) && !(isLinePageBreak l)

/-- dp2ppgen.findNextEmptyLine (fuel variant).  The running result `r` is
kept because the source loop tests the Python truthiness of `retVal`: a hit
at line 0 is falsy, so the scan continues and a later hit overwrites it. -/
def findNextEmptyLineF : Nat → List Line → Nat → Option Nat → Option Nat
  | 0, _, _, r => r
  | fuel + 1, buf, n, r =>
    if n < buf.length ∧ (r = none ∨ r = some 0) then
      let r2 := if isLineBlank (buf.getD n []) then some n else r
      findNextEmptyLineF fuel buf (n + 1) r2
    else r

def findNextEmptyLine (buf : List Line) (n : Nat) : Option Nat :=
  findNextEmptyLineF (buf.length + 1) buf n none

/-- dp2ppgen.findNextChapter (fuel variant).  The running result `r` is kept
because the source loop tests the Python truthiness of `retVal`: a hit at
line 0 is falsy, so the scan continues and a later hit overwrites it. -/
def findNextChapterF : Nat → List Line → Nat → Option Nat → Option Nat
  | 0, _, _, r => r
  | fuel + 1, buf, n, r =>
    if n < buf.length - 1 ∧ (r = none ∨ r = some 0) then
      let r2 := if startsWithL (strL ".h2") (buf.getD n []) then some n else r
      findNextChapterF fuel buf (n + 1) r2
    else r

def findNextChapter (buf : List Line) (n : Nat) : Option Nat :=
  findNextChapterF (buf.length + 1) buf n none

/-- dp2ppgen.findPreviousNonEmptyLine.  A start index past the end of the
buffer raises IndexError in the source. -/
def findPreviousNonEmptyLineF : Nat → List Line → Nat → Except PyErr (Option Nat)
  | 0, _, _ => .error .diverge
  | fuel + 1, buf, n =>
    if n < buf.length then
      if !isLineBlank (buf.getD n []) then .ok (some n)
      else if n = 0 then .ok none
      else findPreviousNonEmptyLineF fuel buf (n - 1)
    else .error .indexError

def findPreviousNonEmptyLine (buf : List Line) (n : Nat) : Except PyErr (Option Nat) :=
  findPreviousNonEmptyLineF (n + 2) buf n

/-- dp2ppgen.findPreviousEmptyLine. -/
def findPreviousEmptyLineF : Nat → List Line → Nat → Except PyErr (Option Nat)
  | 0, _, _ => .error .diverge
  | fuel + 1, buf, n =>
    if n < buf.length then
      if isLineBlank (buf.getD n []) then .ok (some n)
      else if n = 0 then .ok none
      else findPreviousEmptyLineF fuel buf (n - 1)
    else .error .indexError

def findPreviousEmptyLine (buf : List Line) (n : Nat) : Except PyErr (Option Nat) :=
  findPreviousEmptyLineF (n + 2) buf n

/-- Inner loop of dp2ppgen.findPreviousLineOfText.  The source tests the
truthiness of `retVal`, so a text line found at index 0 keeps the loop
running forever; likewise a non-text line at index 0 makes no progress.
Both are modelled as `PyErr.diverge`.  When no non-empty line remains the
source compares `None >= 0`, a TypeError. -/
def fploTextLoopF : Nat → List Line → Nat → Except PyErr Nat
  | 0, _, _ => .error .diverge
  | fuel + 1, buf, n =>
    if n = 0 then .error .diverge
    else if isLineOriginalText (buf.getD n []) then .ok n
    else
      match findPreviousNonEmptyLine buf (n - 1) with
      | .error e => .error e
      | .ok none => .error .typeError
      | .ok (some k) => fploTextLoopF fuel buf k

def findPreviousLineOfText (buf : List Line) (n : Nat) : Except PyErr Nat :=
  match findPreviousNonEmptyLine buf n with
  | .error e => .error e
  | .ok none => .error .typeError
  | .ok (some k) => fploTextLoopF (k + 1) buf k

/-- One parsed footnote entry of dp2ppgen.parseFootnotes (the dict built at
its line 1424).  `scanPageNum` is `none` while the Python variable still has
its initial integer value 0; `paragraphEnd`/`chapterEnd` hold the Python
value (`-1` initially, possibly `None` after anchor resolution). -/
structure FNRec where
  fnBlock : List Line
  fnText : List Line
  fnID : Line
  startLine : Nat
  endLine : Nat
  paragraphEnd : Option Int
  chapterEnd : Option Int
  joinToPrevious : Bool
  joinToNext : Bool
  scanPageNum : Option Line
deriving Repr, DecidableEq

/-- `re.match(r"\*?\[Footnote", line)`. -/
def footnoteOpen (l : Line) : Bool :=
  startsWithL (strL "[Footnote") l || startsWithL (strL "*[Footnote") l

/-- `re.search(r"][\*]*$", line)`: the line ends with `]` followed by zero or
more `*`. -/
def endsRBracketStars (l : Line) : Bool :=
  match l.reverse.dropWhile (fun c => c == '*') with
  | c :: _ => c = ']'
  | [] => false

/-- `re.match(r"\[Footnote (\w{1,2}):", line)`: the captured 1-2 character
label (two characters tried first, as the quantifier is greedy). -/
def matchFnID (l : Line) : Option Line :=
  if startsWithL (strL "[Footnote ") l then
    match l.drop 10 with
    | c1 :: c2 :: c3 :: _ =>
      if isWordChar c1 && isWordChar c2 && c3 == ':' then some [c1, c2]
      else if isWordChar c1 && c2 == ':' then some [c1]
      else none
    | [c1, c2] => if isWordChar c1 && c2 == ':' then some [c1] else none
    | _ => none
  else none

/-- `re.sub(r"^\*\[Footnote: ?", "", line)`. -/
def sub1Star (l : Line) : Line :=
  if startsWithL (strL "*[Footnote:") l then
    match l.drop 11 with
    | ' ' :: r2 => r2
    | r => r
  else l

/-- `re.sub(r"^\[Footnote [A-Za-z]: ?", "", line)`. -/
def sub2Letter (l : Line) : Line :=
  if startsWithL (strL "[Footnote ") l then
    match l.drop 10 with
    | c :: c2 :: r =>
      if c.isAlpha ∧ c2 = ':' then (match r with | ' ' :: r2 => r2 | _ => r) else l
    | _ => l
  else l

/-- `re.sub(r"^\[Footnote \d+: ?", "", line)`. -/
def sub3Digits (l : Line) : Line :=
  if startsWithL (strL "[Footnote ") l then
    let r := l.drop 10
    let ds := r.takeWhile (fun c => c.isDigit)
    if ds ≠ [] then
      match r.drop ds.length with
      | ':' :: r2 => (match r2 with | ' ' :: r3 => r3 | _ => r2)
      | _ => l
    else l
  else l

/-- The three label-stripping substitutions applied to every block line
(dp2ppgen.py lines 1417-1419). -/
def stripFnPrefix (l : Line) : Line := sub3Digits (sub2Letter (sub1Star l))

/-- `re.sub(r"][\*]*$", "", line)`: remove the final `]` and the asterisks
after it, when the line ends that way. -/
def stripCloseSuffix (l : Line) : Line :=
  match l.reverse.dropWhile (fun c => c == '*') with
  | c :: front => if c = ']' then front.reverse else l
  | [] => l

def setLastL (xs : List Line) (f : Line → Line) : List Line :=
  match xs.getLast? with
  | none => xs
  | some la => xs.dropLast ++ [f la]

/-- `re.search(r"(?<![-—])-\*?$", line)`: the line ends in a hyphen
(optionally followed by one asterisk) whose preceding character is neither a
hyphen nor an em dash. -/
def hyphenTrigger (l : Line) : Bool :=
  let t := match l.getLast? with | some '*' => l.dropLast | _ => l
  match t.reverse with
  | ['-'] => true
  | '-' :: c :: _ => !(c == '-' || c == '—')
  | _ => false

/-- Block-copying loop of dp2ppgen.parseFootnotes (lines 1378-1393), phrased
on the list of lines from the current position.  Returns the number of extra
lines consumed (`endLine - startLine`), the collected block and the lines
remaining after `endLine + 1`.  The guard `lineNum < len(inBuf)-1` is "at
least two lines remain". -/
def copyBlockS : List Line → Int → List Line → Nat × List Line × List Line
  | l :: l2 :: rest, bl, acc =>
    let bl2 := bl + (l.count '[' : Int) - (l.count ']' : Int)
    if bl2 = 0 ∧ endsRBracketStars l then (0, acc, l2 :: rest)
    else
      let r := copyBlockS (l2 :: rest) bl2 (acc ++ [l2])
      (r.1 + 1, r.2.1, r.2.2)
  | ls, _, acc => (0, acc, ls.drop 1)

/-- Main scanning loop of dp2ppgen.parseFootnotes (lines 1361-1426).  `fnID`
is the current value of the Python local of that name: building a record
while it was never assigned is an UnboundLocalError. -/
def parseLoopF : Nat → List Line → Nat → Option Line → Option Line → List FNRec →
    Except PyErr (List FNRec)
  | 0, _, _, _, _, _ => .error .diverge
  | _ + 1, [], _, _, _, acc => .ok acc
  | fuel + 1, line :: rest, lineNum, csp, fnID, acc =>
    let csp := if isLinePageBreak line then parseScanPage line else csp
    if footnoteOpen line then
      let r := copyBlockS (line :: rest) 0 [line]
      let fnBlock := r.2.1
      let joinToPrevious := startsWithL (strL "*[Footnote") (fnBlock.headD [])
      let joinToNext := endsWithL (strL "]*") (fnBlock.getLastD [])
      let fnID2 := match matchFnID (fnBlock.headD []) with
        | some i => some i
        | none => fnID
      match fnID2 with
      | none => .error (.unboundLocal "fnID")
      | some theID =>
        let fnText := setLastL (fnBlock.map stripFnPrefix) stripCloseSuffix
        let entry : FNRec :=
          { fnBlock := fnBlock
            fnText := fnText
            fnID := theID
            startLine := lineNum
            endLine := lineNum + r.1
            paragraphEnd := some (-1)
            chapterEnd := some (-1)
            joinToPrevious := joinToPrevious
            joinToNext := joinToNext
            scanPageNum := csp }
        parseLoopF fuel r.2.2 (lineNum + r.1 + 1) csp fnID2 (acc ++ [entry])
    else parseLoopF fuel rest (lineNum + 1) csp fnID acc

/-- Backward search for the join target (dp2ppgen.py lines 1443-1446):
starting at `i-1`, step back while the record has `joinToNext` unset and is
still on the page of record `i-1`.  Python's negative indices wrap around;
below `-len` the access raises IndexError.  Returns the resolved index. -/
def findToFnF : Nat → List FNRec → Option Line → Int → Except PyErr Nat
  | 0, _, _, _ => .error .diverge
  | fuel + 1, fns, pg, t =>
    match pyIdx fns.length t with
    | none => .error .indexError
    | some k =>
      match fns.get? k with
      | none => .error .indexError
      | some r =>
        if r.joinToNext = false ∧ r.scanPageNum = pg then findToFnF fuel fns pg (t - 1)
        else .ok k

/-- The hyphenation splice and record merge for one joined pair
(dp2ppgen.py lines 1464-1489), given the two records.  Returns the merged
record and the extra logged errors.  `aliased` is the corner case where the
backward search wrapped around to the fragment itself, so both names denote
one Python object. -/
def mergeRecords (rTo rFrag : FNRec) (aliased : Bool) :
    Except PyErr (FNRec × List LogErr) :=
  match rTo.fnText.getLast? with
  | none => .error .indexError
  | some toLast =>
    let doSplice : Except PyErr (Bool × List LogErr) :=
      if hyphenTrigger toLast then
        match rFrag.fnText.head? with
        | none => .error .indexError
        | some fragFirst =>
          match fragFirst.head? with
          | none => .error .indexError
          | some c0 =>
            if c0 ≠ '*' then .ok (false, [.unresolvedHyphen]) else .ok (true, [])
      else .ok (false, [])
    match doSplice with
    | .error e => .error e
    | .ok (splice, errs) =>
      if splice then
        let s := rFrag.fnText.headD []
        let parts := pySplit1 s
        let fragText :=
          match parts.2 with
          | some restL => restL :: rFrag.fnText.drop 1
          | none => rFrag.fnText.drop 1
        if aliased then
          -- both modifications act on the one shared list before it is
          -- extended with itself
          match fragText.getLast? with
          | none => .error .indexError
          | some la =>
            let both := fragText.dropLast ++ [la ++ parts.1]
            .ok ({ rTo with
                    fnBlock := rTo.fnBlock ++ rTo.fnBlock
                    fnText := both ++ both
                    joinToNext := false }, errs)
        else
          let toText := rTo.fnText.dropLast ++ [toLast ++ parts.1]
          .ok ({ rTo with
                  fnBlock := rTo.fnBlock ++ rFrag.fnBlock
                  fnText := toText ++ fragText
                  joinToNext := false }, errs)
      else
        .ok ({ rTo with
                fnBlock := rTo.fnBlock ++ rFrag.fnBlock
                fnText := rTo.fnText ++ rFrag.fnText
                joinToNext := false }, errs)

/-- Joining loop of dp2ppgen.parseFootnotes (lines 1432-1491): `i` runs from
`len-1` down to 1; a record with `joinToPrevious` is merged into the record
found by the backward search when that record has `joinToNext` set, else a
join-failure is logged.  The fragment entry is deleted on merge. -/
def joinLoopF : Nat → List FNRec → Nat → List LogErr →
    Except PyErr (List FNRec × List LogErr)
  | 0, _, _, _ => .error .diverge
  | _ + 1, fns, 0, errs => .ok (fns, errs)
  | fuel + 1, fns, i + 1, errs =>
    match fns.get? (i + 1) with
    | none => .error .indexError
    | some rj =>
      let step1 : Except PyErr (List LogErr) :=
        if rj.joinToNext then
          match rj.fnBlock.head? with
          | none => .error .indexError
          | some _ => .ok (errs ++ [.unresolvedJoin])
        else .ok errs
      match step1 with
      | .error e => .error e
      | .ok errs1 =>
        if rj.joinToPrevious then
          match fns.get? i with
          | none => .error .indexError
          | some rPrev =>
            match findToFnF (2 * fns.length + 4) fns rPrev.scanPageNum (i : Int) with
            | .error e => .error e
            | .ok k =>
              match fns.get? k with
              | none => .error .indexError
              | some rTo =>
                -- the debug messages evaluate fnBlock[0] of both records
                match rTo.fnBlock.head?, rj.fnBlock.head? with
                | some _, some _ =>
                  if !rTo.joinToNext then
                    joinLoopF fuel fns i (errs1 ++ [.joinFailed])
                  else
                    match mergeRecords rTo rj (k == i + 1) with
                    | .error e => .error e
                    | .ok (merged, errs2) =>
                      joinLoopF fuel ((fns.set k merged).eraseIdx (i + 1)) i (errs1 ++ errs2)
                | _, _ => .error .indexError
        else joinLoopF fuel fns i errs1

/-- dp2ppgen.parseFootnotes: the scanning loop followed by the joining loop. -/
def parseFootnotes (inBuf : List Line) : Except PyErr (List FNRec × List LogErr) :=
  match parseLoopF (inBuf.length + 1) inBuf 0 none none [] with
  | .error e => .error e
  | .ok fns => joinLoopF (fns.length + 1) fns (fns.length - 1) []

/-- `re.findall("\[([A-Za-z]|[0-9]{1,2})\]", line)`: scan left to right; at
each `[` try a single letter, then two digits, then one digit, each followed
by `]`; on failure resume one character further, on success resume after the
match.  Returns the captured ids in order. -/
def findAnchorsF : Nat → Line → List Line
  | 0, _ => []
  | _ + 1, [] => []
  | fuel + 1, c :: rest =>
    if c = '[' then
      match rest with
      | a :: b :: rest2 =>
        if (a.isAlpha || a.isDigit) ∧ b = ']' then [a] :: findAnchorsF fuel rest2
        else
          match rest2 with
          | d :: rest3 =>
            if a.isDigit ∧ b.isDigit ∧ d = ']' then [a, b] :: findAnchorsF fuel rest3
            else findAnchorsF fuel rest
          | [] => findAnchorsF fuel rest
      | _ => findAnchorsF fuel rest
    else findAnchorsF fuel rest

def findAnchors (s : Line) : List Line := findAnchorsF (s.length + 1) s

/-- The pattern string `"\[{}\]".format(anchor)` stored in `anchorsThisPage`. -/
def mkPat (a : Line) : Line := '\\' :: '[' :: (a ++ ['\\', ']'])

/-- The per-page id list rebuilt on every page break
(dp2ppgen.py lines 1521-1524). -/
def pageIDs (fns : List FNRec) (csp : Option Line) : List Line :=
  (fns.filter (fun f => f.scanPageNum == csp)).map (fun f => f.fnID)

def natL (n : Nat) : Line := strL (toString n)

/-- State of dp2ppgen.processFootnoteAnchors.  `atp` is `none` while the
Python local `anchorsThisPage` is still unbound (before the first page
break). -/
structure AnchSt where
  buf : List Line
  fns : List FNRec
  csp : Option Line
  fnIDs : List Line
  atp : Option (List Line)
  count : Nat
  errs : List LogErr
deriving Repr, DecidableEq

/-- Processing of one anchor hit on one line (dp2ppgen.py lines 1533-1574). -/
def anchorStep (lineNum : Nat) (auto : Bool) (st : AnchSt) (a : Line) :
    Except PyErr AnchSt :=
  if a ∈ st.fnIDs then
    match st.atp with
    | none => .error (.unboundLocal "anchorsThisPage")
    | some atpList =>
      let pat := mkPat a
      let step1 : Nat × List Line × List LogErr :=
        if pat ∉ atpList then (st.count + 1, atpList ++ [pat], st.errs)
        else if auto then (st.count, atpList, st.errs ++ [.duplicateAnchors a])
        else (st.count, atpList, st.errs)
      let count1 := step1.1
      let newAnchor : Line := if auto then strL "[#]" else '[' :: (natL count1 ++ [']'])
      -- the debug trace and the sanity check both index footnotes[count-1]
      match pyIdx st.fns.length ((count1 : Int) - 1) with
      | none => .error .indexError
      | some ci =>
        match st.fns.get? ci with
        | none => .error .indexError
        | some fcur =>
          if st.csp ≠ fcur.scanPageNum then .error .fatal
          else
            let line1 := pyReSubAll ('[' :: (a ++ [']'])) newAnchor (st.buf.getD lineNum [])
            let buf1 := st.buf.set lineNum line1
            let pEnd := findNextEmptyLine buf1 lineNum
            let fns1 := st.fns.set ci { fcur with paragraphEnd := pEnd.map (fun n => (n : Int)) }
            let base : AnchSt :=
              { buf := buf1
                fns := fns1
                csp := st.csp
                fnIDs := st.fnIDs
                atp := some step1.2.1
                count := count1
                errs := step1.2.2 }
            match findNextChapter buf1 lineNum with
            | none => .ok base
            | some c =>
              if c = 0 then .ok base
              else
                match findPreviousLineOfText buf1 c with
                | .error e => .error e
                | .ok p =>
                  match fns1.get? ci with
                  | none => .error .indexError
                  | some f2 =>
                    .ok { base with fns := fns1.set ci { f2 with chapterEnd := some ((p : Int) + 1) } }
  else
    .ok { st with errs := st.errs ++ [.unmatchedAnchor a] }

/-- Line loop of dp2ppgen.processFootnoteAnchors (lines 1513-1576). -/
def anchorLoopF : Nat → Bool → Nat → AnchSt → Except PyErr AnchSt
  | 0, _, _, _ => .error .diverge
  | fuel + 1, auto, lineNum, st =>
    if lineNum < st.buf.length then
      let line := st.buf.getD lineNum []
      let st1 :=
        if isLinePageBreak line then
          let csp := parseScanPage line
          { st with
              atp := some []
              csp := csp
              fnIDs := pageIDs st.fns csp }
        else st
      match (findAnchors (st1.buf.getD lineNum [])).foldlM (anchorStep lineNum auto) st1 with
      | .error e => .error e
      | .ok st2 => anchorLoopF fuel auto (lineNum + 1) st2
    else .ok st

/-- dp2ppgen.processFootnoteAnchors: returns the rewritten buffer, the
updated record list and `fnUniqueAnchorCount`, plus the logged errors. -/
def processFootnoteAnchors (inBuf : List Line) (footnotes : List FNRec) (auto : Bool) :
    Except PyErr ((List Line × List FNRec × Nat) × List LogErr) :=
  let st0 : AnchSt :=
    { buf := inBuf
      fns := footnotes
      csp := none
      fnIDs := []
      atp := none
      count := 0
      errs := [] }
  match anchorLoopF (inBuf.length + 1) auto 0 st0 with
  | .error e => .error e
  | .ok st => .ok ((st.buf, st.fns, st.count), st.errs)

/-- Blank-line removal before footnote blocks, the first loop of
dp2ppgen.processFootnotes (lines 1589-1599).  Checking `outBuf[-1]` on an
empty output is an IndexError. -/
def delTrailingBlanksF : Nat → List Line → Except PyErr (List Line)
  | 0, _ => .error .diverge
  | fuel + 1, acc =>
    match acc.getLast? with
    | none => .error .indexError
    | some l => if isLineBlank l then delTrailingBlanksF fuel acc.dropLast else .ok acc

def stripBlanksLoop : List Line → List Line → Except PyErr (List Line)
  | [], acc => .ok acc
  | line :: rest, acc =>
    if footnoteOpen line then
      match delTrailingBlanksF (acc.length + 1) acc with
      | .error e => .error e
      | .ok acc2 => stripBlanksLoop rest (acc2 ++ [line])
    else stripBlanksLoop rest (acc ++ [line])

/-- Block-skipping inner loop of dp2ppgen.stripFootnoteMarkup: returns
whether the closing line was found (in which case the remainder starts after
it) or the loop got stuck on the final buffer line. -/
def skipBlockS : List Line → Int → Bool × List Line
  | l :: l2 :: rest, bl =>
    let bl2 := bl + (l.count '[' : Int) - (l.count ']' : Int)
    if bl2 = 0 ∧ endsRBracketStars l then (true, l2 :: rest)
    else skipBlockS (l2 :: rest) bl2
  | ls, _ => (false, ls)

/-- dp2ppgen.stripFootnoteMarkup (lines 1265-1292).  When a block reaches the
final line without its close having been consumed, the source loop spins
forever if that final line itself opens a footnote. -/
def stripFnMarkupLoopF : Nat → List Line → List Line → Except PyErr (List Line)
  | 0, _, _ => .error .diverge
  | _ + 1, [], acc => .ok acc
  | fuel + 1, line :: rest, acc =>
    if footnoteOpen line then
      match skipBlockS (line :: rest) 0 with
      | (true, remaining) => stripFnMarkupLoopF fuel remaining acc
      | (false, remaining) =>
        match remaining with
        | [] => .ok acc
        | lastLine :: _ =>
          if footnoteOpen lastLine then .error .diverge
          else .ok (acc ++ [lastLine])
    else stripFnMarkupLoopF fuel rest (acc ++ [line])

def stripFootnoteMarkup (inBuf : List Line) : Except PyErr (List Line) :=
  stripFnMarkupLoopF (inBuf.length + 1) inBuf []

/-- Rendering of a `scanPageNum` by `"{}".format(...)`: the page string, or
`"0"` for the untouched initial integer. -/
def pageL : Option Line → Line
  | none => strL "0"
  | some p => p

/-- `".fn {}  // {}".format(i+1, fn['scanPageNum'])`. -/
def fnHeadPg (n : Nat) (fn : FNRec) : Line :=
  strL ".fn " ++ natL n ++ strL "  // " ++ pageL fn.scanPageNum

/-- `".fn #  // {}".format(fn['scanPageNum'])`. -/
def fnHeadAuto (fn : FNRec) : Line :=
  strL ".fn #  // " ++ pageL fn.scanPageNum

/-- `".fn {}".format(i+1)`. -/
def fnHeadPlain (n : Nat) : Line := strL ".fn " ++ natL n

/-- The fixed preamble of the bookend destination
(dp2ppgen.py lines 1645-1653). -/
def bookendPreamble : List Line :=
  [strL ".sp 4",
   strL ".pb",
   strL ".de div.footnotes \x7b border: dashed 1px #aaaaaa; padding: 1.5em; \x7d",
   strL ".de div.footnotes h2 \x7b margin-top: 1em; \x7d",
   strL ".dv class=\"footnotes\"",
   strL ".sp 2",
   strL ".h2 id=footnotes nobreak",
   strL "FOOTNOTES:",
   strL ".sp 2"]

def bookendMarkup (footnotes : List FNRec) : List Line :=
  bookendPreamble ++
    (footnotes.enum.map (fun p => fnHeadPg (p.1 + 1) p.2 :: p.2.fnText ++ [strL ".fn-"])).join ++
    [strL ".dv-"]

/-- `outBuf.insert(idx, x)` where `idx` is a Python value that may be `None`
(a TypeError). -/
def pyInsertOne (buf : List Line) (idx : Option Int) (x : Line) :
    Except PyErr (List Line) :=
  match idx with
  | none => .error .typeError
  | some i => .ok (insertLinesAt (pyNorm buf.length i) [x] buf)

/-- `outBuf[idx:idx] = xs` where `idx` may be `None`: a `[None:None]` slice
assignment replaces the entire list. -/
def pySliceIns (buf : List Line) (idx : Option Int) (xs : List Line) : List Line :=
  match idx with
  | none => xs
  | some i => insertLinesAt (pyNorm buf.length i) xs buf

/-- chapterend insertion loop of dp2ppgen.generatePpgenFootnoteMarkup
(lines 1665-1688), folded over `reversed(list(enumerate(footnotes)))`. -/
def chapterendLoop (fmL : Line) (auto : Bool) :
    List (Nat × FNRec) → Option Int → List Line → Except PyErr (Option Int × List Line)
  | [], cur, buf => .ok (cur, buf)
  | (i, fn) :: rest, cur, buf =>
    match (if cur ≠ fn.chapterEnd then pyInsertOne buf cur fmL else .ok buf) with
    | .error e => .error e
    | .ok buf1 =>
      let cur1 := if cur ≠ fn.chapterEnd then fn.chapterEnd else cur
      let block := (if auto then fnHeadAuto fn else fnHeadPg (i + 1) fn) :: fn.fnText ++ [strL ".fn-"]
      chapterendLoop fmL auto rest cur1 (pySliceIns buf1 cur1 block)

/-- paragraphend insertion loop (lines 1692-1708). -/
def paragraphendLoop (fmL : Line) :
    List (Nat × FNRec) → Option Int → List Line → Except PyErr (Option Int × List Line)
  | [], cur, buf => .ok (cur, buf)
  | (i, fn) :: rest, cur, buf =>
    match (if cur ≠ fn.paragraphEnd then pyInsertOne buf cur fmL else .ok buf) with
    | .error e => .error e
    | .ok buf1 =>
      let cur1 := if cur ≠ fn.paragraphEnd then fn.paragraphEnd else cur
      let block := fnHeadPlain (i + 1) :: fn.fnText ++ [strL ".fn-"]
      paragraphendLoop fmL rest cur1 (pySliceIns buf1 cur1 block)

/-- inplace replacement loop (lines 1714-1731). -/
def inplaceLoop (fmL : Line) :
    List (Nat × FNRec) → Option Line → Nat → List Line → Nat × List Line
  | [], _, lastStart, buf => (lastStart, buf)
  | (i, fn) :: rest, curPg, lastStart, buf =>
    let buf1 :=
      if curPg ≠ fn.scanPageNum then insertLinesAt (pyNorm buf.length (lastStart : Int)) [fmL] buf
      else buf
    let curPg1 := if curPg ≠ fn.scanPageNum then fn.scanPageNum else curPg
    let block := fnHeadPlain (i + 1) :: fn.fnText ++ [strL ".fn-"]
    inplaceLoop fmL rest curPg1 fn.startLine (pySliceReplace buf1 fn.startLine (fn.endLine + 1) block)

/-- dp2ppgen.generatePpgenFootnoteMarkup (lines 1625-1741). -/
def generatePpgenFootnoteMarkup (inBuf : List Line) (footnotes : List FNRec)
    (footnoteDestination : String) (lzdestt lzdesth : String) (auto : Bool) :
    Except PyErr (List Line × List LogErr) :=
  let fmL : Line :=
    if lzdestt ≠ "" ∧ lzdesth ≠ "" then strL ".fm rend=no"
    else if lzdestt ≠ "" then strL ".fm rend=h"
    else if lzdesth ≠ "" then strL ".fm rend=t"
    else strL ".fm"
  if footnoteDestination = "bookend" then
    .ok (inBuf ++ bookendMarkup footnotes, [])
  else if footnoteDestination = "chapterend" then
    match footnotes.getLast? with
    | none => .error .indexError
    | some lastFn =>
      match chapterendLoop fmL auto footnotes.enum.reverse lastFn.chapterEnd inBuf with
      | .error e => .error e
      | .ok (cur, buf) =>
        match pyInsertOne buf cur fmL with
        | .error e => .error e
        | .ok buf2 => .ok (buf2, [])
  else if footnoteDestination = "paragraphend" then
    match footnotes.getLast? with
    | none => .error .indexError
    | some lastFn =>
      match paragraphendLoop fmL footnotes.enum.reverse lastFn.paragraphEnd inBuf with
      | .error e => .error e
      | .ok (cur, buf) =>
        match pyInsertOne buf cur fmL with
        | .error e => .error e
        | .ok buf2 => .ok (buf2, [])
  else if footnoteDestination = "inplace" then
    match footnotes.getLast? with
    | none => .error .indexError
    | some lastFn =>
      let r := inplaceLoop fmL footnotes.enum.reverse lastFn.scanPageNum lastFn.startLine inBuf
      let buf2 := insertLinesAt (pyNorm r.2.length (r.1 : Int)) [fmL] r.2
      match stripFootnoteMarkup buf2 with
      | .error e => .error e
      | .ok buf3 => .ok (buf3, [])
  else
    .ok (inBuf, [.unrecognizedFndest footnoteDestination])

/-- Bookend landing-zone markup of dp2ppgen.generateLandingZones
(lines 1762-1773). -/
def lzBookendMarkup (lzdestt lzdesth : String) : List Line :=
  let lzs := (if lzdestt = "bookend" then "t" else "") ++ (if lzdesth = "bookend" then "h" else "")
  bookendPreamble ++ [strL (".fm rend=no lz=" ++ lzs), strL ".dv-"]

/-- chapterend landing-zone loop of dp2ppgen.generateLandingZones
(lines 1784-1790); the truthiness test makes a chapter start at line 0 end
the loop. -/
def lzChapterLoopF : Nat → Line → List Line → Option Nat → Except PyErr (List Line)
  | 0, _, _, _ => .error .diverge
  | fuel + 1, fmL, buf, ncs =>
    match ncs with
    | none => .ok buf
    | some n =>
      if n = 0 then .ok buf
      else
        match findPreviousEmptyLine buf n with
        | .error e => .error e
        | .ok none => .error .typeError
        | .ok (some k) =>
          let buf2 := insertLinesAt (pyNorm buf.length (k : Int)) [fmL] buf
          lzChapterLoopF fuel fmL buf2 (findNextChapter buf2 (n + 2))

/-- dp2ppgen.generateLandingZones (lines 1744-1792). -/
def generateLandingZones (inBuf : List Line) (lzdestt lzdesth : String) :
    Except PyErr (List Line × List LogErr) :=
  let errs0 :=
    (if lzdestt ≠ "chapterend" ∧ lzdestt ≠ "bookend" ∧ lzdestt ≠ "" then
       [LogErr.unrecognizedLzdestt lzdestt] else []) ++
    (if lzdesth ≠ "chapterend" ∧ lzdesth ≠ "bookend" ∧ lzdesth ≠ "" then
       [LogErr.unrecognizedLzdesth lzdesth] else [])
  let buf1 :=
    if lzdestt = "bookend" ∨ lzdesth = "bookend" then inBuf ++ lzBookendMarkup lzdestt lzdesth
    else inBuf
  if lzdestt = "chapterend" ∨ lzdesth = "chapterend" then
    let lzs := (if lzdestt = "chapterend" then "t" else "") ++
      (if lzdesth = "chapterend" then "h" else "")
    match lzChapterLoopF (buf1.length + 2) (strL (".fm lz=" ++ lzs)) buf1 (findNextChapter buf1 0) with
    | .error e => .error e
    | .ok buf2 => .ok (buf2, errs0)
  else .ok (buf1, errs0)

/-- dp2ppgen.processFootnotes (lines 1583-1621): blank-line stripping before
footnote blocks, parse + join, markup stripping (unless inplace), anchor
resolution, the count-mismatch check, then markup generation and landing
zones (only when any footnote was found). -/
def processFootnotes (inBuf : List Line) (footnoteDestination : String)
    (keepOriginal : Bool) (lzdestt lzdesth : String) (auto : Bool) :
    Except PyErr (List Line × List LogErr) :=
  match stripBlanksLoop inBuf [] with
  | .error e => .error e
  | .ok buf1 =>
    match parseFootnotes buf1 with
    | .error e => .error e
    | .ok (footnotes, errs1) =>
      match (if footnoteDestination ≠ "inplace" then stripFootnoteMarkup buf1 else .ok buf1) with
      | .error e => .error e
      | .ok buf2 =>
        match processFootnoteAnchors buf2 footnotes auto with
        | .error e => .error e
        | .ok ((buf3, fns2, count), errs2) =>
          let errs3 := errs1 ++ errs2 ++
            (if fns2.length ≠ count then [.anchorCountMismatch] else [])
          if fns2.length > 0 then
            match generatePpgenFootnoteMarkup buf3 fns2 footnoteDestination lzdestt lzdesth auto with
            | .error e => .error e
            | .ok (buf4, errs4) =>
              if lzdestt ≠ "" ∨ lzdesth ≠ "" then
                match generateLandingZones buf4 lzdestt lzdesth with
                | .error e => .error e
                | .ok (buf5, errs5) => .ok (buf5, errs3 ++ errs4 ++ errs5)
              else .ok (buf4, errs3 ++ errs4)
          else .ok (buf3, errs3)

deriving instance DecidableEq for Except

/-- A line free of square brackets. -/
def noBrk (l : Line) : Prop := ('[' ∉ l) ∧ (']' ∉ l)

instance (l : Line) : Decidable (noBrk l) := by unfold noBrk; infer_instance

/-- A well-formed footnote label: a single letter, or one or two digits —
exactly the shapes that both the label regex of parseFootnotes and the
anchor regex of processFootnoteAnchors accept. -/
def idOk1 : Line → Bool
  | [c] => c.isAlpha || c.isDigit
  | [c, d] => c.isDigit && d.isDigit
  | _ => false

/-- `"[Footnote <id>: " ++ body` — an opening line without its closing
bracket. -/
def mkOpen (id b : Line) : Line := strL "[Footnote " ++ (id ++ ':' :: ' ' :: b)

/-- One rendered footnote directive block `.fn n  // page / body / .fn-`. -/
def fnDirBlock (n : Nat) (f : FNRec) : List Line :=
  fnHeadPg n f :: f.fnText ++ [strL ".fn-"]

/-- Parameters of one page of the well-formed document family used for the
end-to-end pipeline property: a page-break line, one text line carrying one
anchor, and one single-line footnote block. -/
structure PageSpec where
  pg : Line
  pre : Line
  post : Line
  id : Line
  body : Line
deriving Repr, DecidableEq

def pbL (pg : Line) : Line := strL "// " ++ pg

def anchorTextL (p : PageSpec) : Line := p.pre ++ '[' :: (p.id ++ ']' :: p.post)

def fnLineL (p : PageSpec) : Line := mkOpen p.id p.body ++ [']']

def mkPage (p : PageSpec) : List Line := [pbL p.pg, anchorTextL p, fnLineL p]

/-- The document of the family: the pages in order, a final blank line (as
produced by reading a newline-terminated file). -/
def mkDoc (specs : List PageSpec) : List Line := (specs.map mkPage).join ++ [[]]

/-- Well-formedness of one page of the family. -/
def WFPage (p : PageSpec) : Prop :=
  parseScanPage (pbL p.pg) = some p.pg ∧
  idOk1 p.id = true ∧
  noBrk p.pre ∧ noBrk p.post ∧ noBrk p.body ∧
  isLinePageBreak (anchorTextL p) = false ∧
  footnoteOpen (anchorTextL p) = false ∧
  startsWithL (strL ".h2") p.pre = false ∧
  noBrk p.pg

instance (p : PageSpec) : Decidable (WFPage p) := by unfold WFPage; infer_instance

def rewrittenTextL (p : PageSpec) (n : Nat) : Line :=
  p.pre ++ '[' :: (natL n ++ ']' :: p.post)

def mkOutPage (p : PageSpec) (n : Nat) : List Line := [pbL p.pg, rewrittenTextL p n]

def c1Block (i : Nat) (p : PageSpec) : List Line :=
  [strL ".fn " ++ natL (i + 1) ++ strL "  // " ++ p.pg, p.body, strL ".fn-"]

/-- The expected output of the pipeline on the family, destination bookend:
every anchor rewritten to its 1-based sequence number, footnote blocks
removed, and the directive blocks numbered 1..N appended at the end. -/
def c1Expected (specs : List PageSpec) : List Line :=
  (specs.enum.map (fun q => mkOutPage q.2 (q.1 + 1))).join ++ [[]] ++
    (if specs = [] then []
     else bookendPreamble ++ (specs.enum.map (fun q => c1Block q.1 q.2)).join ++ [strL ".dv-"])

/-- Every anchor occurring in the buffer is unmatched: its id has no record
on the scan page current at its line (tracked exactly as the resolver does). -/
def allUnmatchedB (fns : List FNRec) : List Line → List Line → Bool
  | _, [] => true
  | ids, line :: rest =>
    let ids2 := if isLinePageBreak line then pageIDs fns (parseScanPage line) else ids
    (findAnchors line).all (fun a => decide (a ∉ ids2)) && allUnmatchedB fns ids2 rest

/-- The error trace the resolver must emit on such a buffer: one
unmatched-anchor error per anchor occurrence, in order. -/
def expectedUnmatched : List Line → List LogErr
  | [] => []
  | line :: rest =>
    (findAnchors line).map (fun a => LogErr.unmatchedAnchor a) ++ expectedUnmatched rest

/-- The record parseFootnotes builds for the page whose page-break line sits
at buffer line `n`. -/
def c1Rec (n : Nat) (p : PageSpec) : FNRec :=
  { fnBlock := [fnLineL p]
    fnText := [p.body]
    fnID := p.id
    startLine := n + 2
    endLine := n + 2
    paragraphEnd := some (-1)
    chapterEnd := some (-1)
    joinToPrevious := false
    joinToNext := false
    scanPageNum := some p.pg }

/-- The records of consecutive pages, first page-break line at `n`. -/
def c1Recs : Nat → List PageSpec → List FNRec
  | _, [] => []
  | n, p :: rest => c1Rec n p :: c1Recs (n + 3) rest

/-- A page record after anchor resolution: `paragraphEnd` points at the
final blank line `pe`; `chapterEnd` is untouched (no `.h2` line exists). -/
def c1RecD (n pe : Nat) (p : PageSpec) : FNRec :=
  { c1Rec n p with paragraphEnd := some (pe : Int) }

def c1RecsD : Nat → Nat → List PageSpec → List FNRec
  | _, _, [] => []
  | n, pe, p :: rest => c1RecD n pe p :: c1RecsD (n + 3) pe rest

/-- The stripped buffer the anchor resolver receives: the footnote block
lines removed, every page reduced to its page break and its text line. -/
def c1Stripped (specs : List PageSpec) : List Line :=
  (specs.map (fun p => [pbL p.pg, anchorTextL p])).join ++ [[]]

/-- The anchor-resolved text pages: anchor `k+1` on the first page of the
tail. -/
def c1OutPages : Nat → List PageSpec → List Line
  | _, [] => []
  | k, p :: rest => pbL p.pg :: rewrittenTextL p (k + 1) :: c1OutPages (k + 1) rest

/-! ### General lemmas about the embedded primitives -/

theorem startsWithL_cons (c : Char) (p l : Line) :
    startsWithL (c :: p) l = true ↔ ∃ t, l = c :: t ∧ startsWithL p t = true := by
  cases l with
  | nil => simp [startsWithL, List.isPrefixOf]
  | cons a t => simp [startsWithL]; aesop

theorem startsWithL_append (p t : Line) : startsWithL p (p ++ t) = true := by
  simp [startsWithL]

theorem startsWithL_cons_ne (c a : Char) (p t : Line) (h : a ≠ c) :
    startsWithL (c :: p) (a :: t) = false := by
  simp [startsWithL, List.isPrefixOf]
  intro he
  exact absurd he.symm h

theorem startsWithL_nil_false (c : Char) (p : Line) :
    startsWithL (c :: p) [] = false := by
  simp [startsWithL, List.isPrefixOf]

/-- A character of a known class differs from one outside it. -/
theorem alpha_ne (c x : Char) (h : c.isAlpha = true) (hx : x.isAlpha = false) : c ≠ x := by
  intro he; rw [he, hx] at h; cases h

theorem digit_ne (c x : Char) (h : c.isDigit = true) (hx : x.isDigit = false) : c ≠ x := by
  intro he; rw [he, hx] at h; cases h

theorem isDigit_isAlpha_false (c : Char) (h : c.isDigit = true) : c.isAlpha = false := by
  by_contra hb
  simp at hb
  simp [Char.isDigit] at h
  simp [Char.isAlpha, Char.isUpper, Char.isLower] at hb
  obtain ⟨h1, h2⟩ := h
  rcases hb with ⟨a1, a2⟩ | ⟨a1, a2⟩ <;>
    · revert h1 h2 a1 a2
      simp [Char.le_def, UInt32.le_def, BitVec.le_def]
      omega

theorem isWordChar_of_alpha (c : Char) (h : c.isAlpha = true) : isWordChar c = true := by
  simp [isWordChar, Char.isAlphanum, h]

theorem isWordChar_of_digit (c : Char) (h : c.isDigit = true) : isWordChar c = true := by
  simp [isWordChar, Char.isAlphanum, h]

/-- Members of a well-formed label are never square brackets. -/
theorem idOk1_not_mem (id : Line) (h : idOk1 id = true) (x : Char)
    (hx : x.isAlpha = false) (hd : x.isDigit = false) : x ∉ id := by
  match id, h with
  | [c], h =>
    simp [idOk1] at h
    rcases h with h | h
    · simpa using (alpha_ne c x h hx).symm
    · simpa using (digit_ne c x h hd).symm
  | [c, d], h =>
    simp [idOk1] at h
    simp
    exact ⟨(digit_ne c x h.1 hd).symm, (digit_ne d x h.2 hd).symm⟩

theorem footnoteOpen_of_star (l : Line) (h : startsWithL (strL "*[Footnote") l = true) :
    footnoteOpen l = true := by
  simp [footnoteOpen, h]

theorem footnoteOpen_prefix (x : Line) :
    footnoteOpen (strL "[Footnote " ++ x) = true := by
  have : strL "[Footnote " ++ x = strL "[Footnote" ++ (' ' :: x) := by simp [strL]
  simp [footnoteOpen, this, startsWithL_append]

theorem matchFnID_star_none (l : Line) (h : startsWithL (strL "*[Footnote") l = true) :
    matchFnID l = none := by
  rw [show strL "*[Footnote" = '*' :: strL "[Footnote" from rfl, startsWithL_cons] at h
  obtain ⟨t, rfl, -⟩ := h
  rw [matchFnID]
  rw [show strL "[Footnote " = '[' :: strL "Footnote " from rfl]
  simp [startsWithL]

/-- Lines not starting with `-`, `/` or `.` are never page breaks. -/
theorem parseScanPage_other (c : Char) (t : Line)
    (h1 : c ≠ '-') (h2 : c ≠ '/') (h3 : c ≠ '.') : parseScanPage (c :: t) = none := by
  rw [parseScanPage]
  rw [show strL "-----File: " = '-' :: strL "----File: " from rfl,
    show strL "// " = '/' :: strL "/ " from rfl,
    show strL ".bn " = '.' :: strL "bn " from rfl]
  rw [startsWithL_cons_ne _ _ _ _ h1, startsWithL_cons_ne _ _ _ _ h2,
    startsWithL_cons_ne _ _ _ _ h3]
  simp

theorem footnoteOpen_other (c : Char) (t : Line) (h1 : c ≠ '[') (h2 : c ≠ '*') :
    footnoteOpen (c :: t) = false := by
  rw [footnoteOpen]
  rw [show strL "[Footnote" = '[' :: strL "Footnote" from rfl,
    show strL "*[Footnote" = '*' :: strL "[Footnote" from rfl]
  rw [startsWithL_cons_ne _ _ _ _ h1, startsWithL_cons_ne _ _ _ _ h2]
  rfl

theorem copyBlockS_fnBlock (ls : List Line) (bl : Int) (acc : List Line) :
    ∃ t, (copyBlockS ls bl acc).2.1 = acc ++ t := by
  induction ls generalizing bl acc with
  | nil => exact ⟨[], by simp [copyBlockS]⟩
  | cons l rest ih =>
    cases rest with
    | nil => exact ⟨[], by simp [copyBlockS]⟩
    | cons l2 rest2 =>
      by_cases h : (bl + (l.count '[' : Int) - (l.count ']' : Int) = 0 ∧ endsRBracketStars l = true)
      · exact ⟨[], by simp [copyBlockS, h]⟩
      · obtain ⟨t, ht⟩ := ih (bl + (l.count '[' : Int) - (l.count ']' : Int)) (acc ++ [l2])
        refine ⟨l2 :: t, ?_⟩
        simp [copyBlockS, h, ht]

/-- A block whose first line closes immediately is copied as that line alone;
this covers both the normal case and the final-buffer-line case. -/
theorem copyBlockS_close1 (l : Line) (ls : List Line) (bl : Int) (acc : List Line)
    (h : bl + (l.count '[' : Int) - (l.count ']' : Int) = 0)
    (h2 : endsRBracketStars l = true) :
    copyBlockS (l :: ls) bl acc = (0, acc, ls) := by
  cases ls with
  | nil => simp [copyBlockS]
  | cons l2 rest2 => simp [copyBlockS, h, h2]

/-- With a nonzero running bracket level and only bracket-free lines left,
the copy loop consumes everything up to the final line. -/
theorem copyBlockS_noclose (ls : List Line) (bl : Int) (acc : List Line)
    (hbl : bl ≠ 0) (h : ∀ l ∈ ls, noBrk l) :
    copyBlockS ls bl acc = (ls.length - 1, acc ++ ls.drop 1, []) := by
  induction ls generalizing bl acc with
  | nil => simp [copyBlockS]
  | cons l rest ih =>
    cases rest with
    | nil => simp [copyBlockS]
    | cons l2 rest2 =>
      have hl : noBrk l := h l (by simp)
      have hc1 : l.count '[' = 0 := List.count_eq_zero.mpr hl.1
      have hc2 : l.count ']' = 0 := List.count_eq_zero.mpr hl.2
      have hrec := ih (bl + (l.count '[' : Int) - (l.count ']' : Int))
        (acc ++ [l2]) (by rw [hc1, hc2]; simpa using hbl)
        (fun x hx => h x (by simp [hx]))
      rw [copyBlockS]
      rw [if_neg (by rw [hc1, hc2]; simp; intro hh; exact absurd (by omega : bl = 0) hbl)]
      rw [hrec]
      simp

theorem stripCloseSuffix_bracket (t : Line) : stripCloseSuffix (t ++ [']']) = t := by
  simp [stripCloseSuffix, List.dropWhile]

theorem stripCloseSuffix_bracketStar (t : Line) :
    stripCloseSuffix (t ++ strL "]*") = t := by
  rw [show strL "]*" = [']', '*'] from rfl]
  rw [show t ++ [']', '*'] = (t ++ [']']) ++ ['*'] by simp]
  simp [stripCloseSuffix, List.dropWhile]

theorem mem_of_dropWhile_star (r : Line) (c : Char) (front : Line)
    (he : r.dropWhile (fun x => x == '*') = c :: front) : c ∈ r := by
  induction r with
  | nil => simp [List.dropWhile] at he
  | cons a r' ih =>
    by_cases ha : a = '*'
    · rw [List.dropWhile, ha] at he
      rw [show (('*' : Char) == '*') = true by simp] at he
      exact List.mem_cons_of_mem _ (ih he)
    · rw [List.dropWhile] at he
      rw [show (a == '*') = false by simp [ha]] at he
      simp only [List.cons.injEq] at he
      simp [he.1]

theorem stripCloseSuffix_noBrk (l : Line) (h : ']' ∉ l) : stripCloseSuffix l = l := by
  rw [stripCloseSuffix]
  rcases he : l.reverse.dropWhile (fun c => c == '*') with _ | ⟨c, front⟩
  · rfl
  · have hc : c ≠ ']' := by
      intro hc
      subst hc
      exact h (by simpa using mem_of_dropWhile_star l.reverse ']' front he)
    simp [hc]

theorem endsWithL_bracketStar (t : Line) : endsWithL (strL "]*") (t ++ strL "]*") = true := by
  rw [endsWithL, List.reverse_append]
  rw [show (strL "]*").reverse = ['*', ']'] from rfl]
  exact startsWithL_append ['*', ']'] t.reverse

theorem endsWithL_bracket_false (t : Line) : endsWithL (strL "]*") (t ++ [']']) = false := by
  rw [endsWithL, List.reverse_append]
  rw [show (strL "]*").reverse = '*' :: [']'] from rfl]
  exact startsWithL_cons_ne _ _ _ _ (by decide)

theorem endsWithL_bracketStar_noBrk (l : Line) (h : ']' ∉ l) :
    endsWithL (strL "]*") l = false := by
  rw [endsWithL]
  rw [show (strL "]*").reverse = ['*', ']'] from rfl]
  have hrev : ']' ∉ l.reverse := by simpa using h
  rcases he : l.reverse with _ | ⟨a, _ | ⟨b, r⟩⟩
  · rfl
  · simp [List.isPrefixOf]
  · have hb : b ≠ ']' := by
      intro hbe
      exact hrev (by rw [he, hbe]; simp)
    simp [List.isPrefixOf]
    intro _ h2
    exact absurd h2.symm hb

theorem startsWithL_cons_same (c : Char) (p t : Line) :
    startsWithL (c :: p) (c :: t) = startsWithL p t := by
  simp [startsWithL, List.isPrefixOf]

theorem not_starts_fnp (l : Line) (h : '[' ∉ l) :
    startsWithL (strL "[Footnote ") l = false := by
  rcases l with _ | ⟨a, t⟩
  · exact startsWithL_nil_false _ _
  · have ha : a ≠ '[' := by intro he; exact h (by simp [he])
    rw [show strL "[Footnote " = '[' :: strL "Footnote " from rfl]
    exact startsWithL_cons_ne _ _ _ _ ha

theorem not_starts_star_fn (l : Line) (h : '[' ∉ l) :
    startsWithL (strL "*[Footnote:") l = false := by
  rcases l with _ | ⟨a, t⟩
  · exact startsWithL_nil_false _ _
  · by_cases ha : a = '*'
    · subst ha
      rw [show strL "*[Footnote:" = '*' :: strL "[Footnote:" from rfl, startsWithL_cons_same]
      rcases t with _ | ⟨b, t'⟩
      · exact startsWithL_nil_false _ _
      · have hb : b ≠ '[' := by intro he; exact h (by simp [he])
        rw [show strL "[Footnote:" = '[' :: strL "Footnote:" from rfl]
        exact startsWithL_cons_ne _ _ _ _ hb
    · rw [show strL "*[Footnote:" = '*' :: strL "[Footnote:" from rfl]
      exact startsWithL_cons_ne _ _ _ _ ha

theorem stripFnPrefix_noBrk (l : Line) (h : '[' ∉ l) : stripFnPrefix l = l := by
  rw [stripFnPrefix, sub1Star, not_starts_star_fn l h]
  simp only [Bool.false_eq_true, if_false]
  rw [sub2Letter, not_starts_fnp l h]
  simp only [Bool.false_eq_true, if_false]
  rw [sub3Digits, not_starts_fnp l h]
  simp only [Bool.false_eq_true, if_false]

theorem matchFnID_open (id t : Line) (hid : idOk1 id = true) :
    matchFnID (strL "[Footnote " ++ (id ++ ':' :: ' ' :: t)) = some id := by
  rw [matchFnID, startsWithL_append, if_pos rfl]
  rw [show (10 : Nat) = (strL "[Footnote ").length from rfl, List.drop_left]
  match id, hid with
  | [c], hid =>
    simp only [idOk1, Bool.or_eq_true] at hid
    have hw : isWordChar c = true := by
      rcases hid with h | h
      · exact isWordChar_of_alpha _ h
      · exact isWordChar_of_digit _ h
    simp [hw, show isWordChar ':' = false from by decide]
  | [c, d], hid =>
    simp only [idOk1, Bool.and_eq_true] at hid
    simp [isWordChar_of_digit _ hid.1, isWordChar_of_digit _ hid.2]

theorem stripFnPrefix_open (id t : Line) (hid : idOk1 id = true) (ht : '[' ∉ t) :
    stripFnPrefix (strL "[Footnote " ++ (id ++ ':' :: ' ' :: t)) = t := by
  rw [stripFnPrefix]
  rw [show sub1Star (strL "[Footnote " ++ (id ++ ':' :: ' ' :: t)) =
      strL "[Footnote " ++ (id ++ ':' :: ' ' :: t) from by
    rw [sub1Star]
    rw [show strL "*[Footnote:" = '*' :: strL "[Footnote:" from rfl]
    rw [show strL "[Footnote " ++ (id ++ ':' :: ' ' :: t) =
      '[' :: (strL "Footnote " ++ (id ++ ':' :: ' ' :: t)) from rfl]
    rw [startsWithL_cons_ne _ _ _ _ (by decide)]
    simp]
  match id, hid with
  | [c], hid =>
    simp only [idOk1, Bool.or_eq_true] at hid
    rcases hid with halpha | hdigit
    · rw [sub2Letter, startsWithL_append, if_pos rfl]
      rw [show (10 : Nat) = (strL "[Footnote ").length from rfl, List.drop_left]
      simp only [List.cons_append, List.nil_append]
      rw [if_pos (by simp [halpha])]
      rw [sub3Digits, not_starts_fnp t ht]
      simp
    · rw [sub2Letter, startsWithL_append, if_pos rfl]
      rw [show (10 : Nat) = (strL "[Footnote ").length from rfl, List.drop_left]
      simp only [List.cons_append, List.nil_append]
      rw [if_neg (by simp [isDigit_isAlpha_false c hdigit])]
      rw [sub3Digits, startsWithL_append, if_pos rfl]
      rw [show (10 : Nat) = (strL "[Footnote ").length from rfl, List.drop_left]
      simp only [List.cons_append, List.nil_append]
      rw [show List.takeWhile (fun c => c.isDigit) (c :: ':' :: ' ' :: t) = [c] from by
        simp [List.takeWhile, hdigit]]
      simp
  | [c, d], hid =>
    simp only [idOk1, Bool.and_eq_true] at hid
    rw [sub2Letter, startsWithL_append, if_pos rfl]
    rw [show (10 : Nat) = (strL "[Footnote ").length from rfl, List.drop_left]
    simp only [List.cons_append, List.nil_append]
    rw [if_neg (by simp [isDigit_isAlpha_false c hid.1])]
    rw [sub3Digits, startsWithL_append, if_pos rfl]
    rw [show (10 : Nat) = (strL "[Footnote ").length from rfl, List.drop_left]
    simp only [List.cons_append, List.nil_append]
    rw [show List.takeWhile (fun c => c.isDigit) (c :: d :: ':' :: ' ' :: t) = [c, d] from by
      simp [List.takeWhile, hid.1, hid.2]]
    simp

theorem stripFnPrefix_cont (t : Line) (ht : '[' ∉ t) :
    stripFnPrefix (strL "*[Footnote: " ++ t) = t := by
  rw [stripFnPrefix]
  rw [show sub1Star (strL "*[Footnote: " ++ t) = t from by
    rw [sub1Star]
    rw [show strL "*[Footnote: " ++ t = strL "*[Footnote:" ++ (' ' :: t) from by simp [strL]]
    rw [startsWithL_append, if_pos rfl]
    rw [show (11 : Nat) = (strL "*[Footnote:").length from rfl, List.drop_left]
    rfl]
  rw [sub2Letter, not_starts_fnp t ht]
  simp only [Bool.false_eq_true, if_false]
  rw [sub3Digits, not_starts_fnp t ht]
  simp only [Bool.false_eq_true, if_false]

/-! ### C10: an initial continuation block leaves fnID unbound -/

theorem parseLoopF_unbound (pre : List Line) (cl : Line) (rest : List Line)
    (e lineNum : Nat) (csp : Option Line) (acc : List FNRec)
    (hpre : ∀ l ∈ pre, footnoteOpen l = false)
    (hcl : startsWithL (strL "*[Footnote") cl = true) :
    parseLoopF (pre.length + 1 + e) (pre ++ cl :: rest) lineNum csp none acc =
      .error (.unboundLocal "fnID") := by
  induction pre generalizing e lineNum csp acc with
  | nil =>
    simp only [List.length_nil, List.nil_append, Nat.zero_add]
    rw [show 1 + e = e + 1 by omega]
    obtain ⟨t, ht⟩ := copyBlockS_fnBlock (cl :: rest) 0 [cl]
    simp [parseLoopF, footnoteOpen_of_star cl hcl, ht, matchFnID_star_none cl hcl]
  | cons p pre ih =>
    have hp : footnoteOpen p = false := hpre p (by simp)
    have hrest : ∀ l ∈ pre, footnoteOpen l = false := fun l hl => hpre l (by simp [hl])
    simp only [List.length_cons, List.cons_append]
    rw [show pre.length + 1 + 1 + e = (pre.length + 1 + e) + 1 by omega]
    rw [parseLoopF]
    simp only [hp, if_false, Bool.false_eq_true]
    exact ih e (lineNum + 1) _ acc hrest

/-- C10: the parser assigns an id only on a non-continuation opening of the
form `[Footnote <label>:`; on every buffer whose first footnote block opens
with the continuation marker `*[Footnote`, parseFootnotes aborts with the
unbound-variable error for `fnID` instead of returning a record list. -/
theorem c10_first_block_continuation_unbound (pre : List Line) (cl : Line) (rest : List Line)
    (hpre : ∀ l ∈ pre, footnoteOpen l = false)
    (hcl : startsWithL (strL "*[Footnote") cl = true) :
    parseFootnotes (pre ++ cl :: rest) = .error (.unboundLocal "fnID") := by
  rw [parseFootnotes]
  have hlen : (pre ++ cl :: rest).length + 1 = pre.length + 1 + (rest.length + 1) := by
    simp; omega
  rw [hlen, parseLoopF_unbound pre cl rest (rest.length + 1) 0 none [] hpre hcl]

theorem c10_first_block_continuation_unbound_witness :
    (∀ l ∈ [strL "// 001.png", strL "Some text."], footnoteOpen l = false) ∧
    startsWithL (strL "*[Footnote") (strL "*[Footnote: continued text]") = true ∧
    parseFootnotes [strL "// 001.png", strL "Some text.",
      strL "*[Footnote: continued text]"] = .error (.unboundLocal "fnID") :=
  ⟨by decide, by decide,
    c10_first_block_continuation_unbound [strL "// 001.png", strL "Some text."]
      (strL "*[Footnote: continued text]") [] (by decide) (by decide)⟩

/-! ### C2: an unterminated block is returned truncated, with no error -/

/-- C2 counterexample: a buffer ending inside an unterminated footnote block.
The claim says parseFootnotes reports a fatal parse error and aborts; in
fact it returns normally, with a truncated record and no reported error. -/
theorem c2_counterexample_truncated_ok :
    parseFootnotes [strL "// 001.png", strL "[Footnote A: truncated text"] =
      .ok ([{ fnBlock := [strL "[Footnote A: truncated text"]
              fnText := [strL "truncated text"]
              fnID := strL "A"
              startLine := 1
              endLine := 1
              paragraphEnd := some (-1)
              chapterEnd := some (-1)
              joinToPrevious := false
              joinToNext := false
              scanPageNum := some (strL "001.png") }], []) := by decide

theorem setLastL_id (l : List Line) (f : Line → Line) (h : ∀ x ∈ l, f x = x) :
    setLastL l f = l := by
  rw [setLastL]
  rcases hl : l.getLast? with _ | la
  · rfl
  · show l.dropLast ++ [f la] = l
    have hmem : la ∈ l := by
      obtain ⟨hne, heq⟩ := List.mem_getLast?_eq_getLast (l := l) (x := la) (by simp [hl])
      rw [heq]
      exact List.getLast_mem hne
    rw [h la hmem]
    exact List.dropLast_append_getLast? la (by simp [hl])

theorem count_open_left (id b : Line) (hid : idOk1 id = true) (hb : noBrk b) :
    (mkOpen id b).count '[' = 1 := by
  rw [mkOpen, List.count_append]
  rw [show (strL "[Footnote ").count '[' = 1 from by decide]
  rw [List.count_append]
  rw [List.count_eq_zero.mpr (idOk1_not_mem id hid '[' (by decide) (by decide))]
  rw [List.count_cons_of_ne (by decide), List.count_cons_of_ne (by decide)]
  rw [List.count_eq_zero.mpr hb.1]

theorem count_open_right (id b : Line) (hid : idOk1 id = true) (hb : noBrk b) :
    (mkOpen id b).count ']' = 0 := by
  rw [mkOpen, List.count_append]
  rw [show (strL "[Footnote ").count ']' = 0 from by decide]
  rw [List.count_append]
  rw [List.count_eq_zero.mpr (idOk1_not_mem id hid ']' (by decide) (by decide))]
  rw [List.count_cons_of_ne (by decide), List.count_cons_of_ne (by decide)]
  rw [List.count_eq_zero.mpr hb.2]

theorem mem_open (id b : Line) (hid : idOk1 id = true) (hb : noBrk b) :
    ']' ∉ mkOpen id b :=
  List.count_eq_zero.mp (count_open_right id b hid hb)

theorem parseLoopF_nil (fuel lineNum : Nat) (csp fnID : Option Line) (acc : List FNRec) :
    parseLoopF (fuel + 1) [] lineNum csp fnID acc = .ok acc := rfl

theorem joinLoopF_none (fuel : Nat) (fns : List FNRec) (errs : List LogErr) :
    joinLoopF (fuel + 1) fns 0 errs = .ok (fns, errs) := rfl

theorem copyBlockS_open_unterminated (id b : Line) (tail : List Line)
    (hid : idOk1 id = true) (hb : noBrk b) (htail : ∀ l ∈ tail, noBrk l) :
    copyBlockS (mkOpen id b :: tail) 0 [mkOpen id b] =
      (tail.length, mkOpen id b :: tail, []) := by
  cases tail with
  | nil => simp [copyBlockS]
  | cons t0 ts =>
    rw [copyBlockS]
    rw [count_open_left id b hid hb, count_open_right id b hid hb]
    rw [if_neg (by simp)]
    rw [copyBlockS_noclose (t0 :: ts) _ _ (by simp) htail]
    simp

/-- C2 amended: when the closing bracket of a footnote block is never found,
parseFootnotes silently returns one truncated record whose block consists of
every line from the opening to the end of the buffer, and reports no error;
no fatal error is raised and the pass does not abort. -/
theorem c2_amended_truncated_record (pg id b : Line) (tail : List Line)
    (hpg : parseScanPage (pbL pg) = some pg)
    (hid : idOk1 id = true) (hb : noBrk b)
    (htail : ∀ l ∈ tail, noBrk l) :
    parseFootnotes (pbL pg :: mkOpen id b :: tail) =
      .ok ([{ fnBlock := mkOpen id b :: tail
              fnText := b :: tail
              fnID := id
              startLine := 1
              endLine := 1 + tail.length
              paragraphEnd := some (-1)
              chapterEnd := some (-1)
              joinToPrevious := false
              joinToNext := false
              scanPageNum := some pg }], []) := by
  rw [parseFootnotes]
  rw [show (pbL pg :: mkOpen id b :: tail).length + 1 = (tail.length + 2) + 1 by
    simp only [List.length_cons]]
  rw [parseLoopF]
  rw [show isLinePageBreak (pbL pg) = true from by simp [isLinePageBreak, hpg]]
  rw [show footnoteOpen (pbL pg) = false from by
    rw [show pbL pg = '/' :: ('/' :: (' ' :: pg)) from rfl]
    exact footnoteOpen_other _ _ (by decide) (by decide)]
  simp only [if_true, Bool.false_eq_true, if_false, hpg]
  rw [show tail.length + 2 = (tail.length + 1) + 1 by omega]
  rw [parseLoopF]
  rw [show isLinePageBreak (mkOpen id b) = false from by
    rw [isLinePageBreak, show mkOpen id b = '[' :: (strL "Footnote " ++ (id ++ ':' :: ' ' :: b)) from rfl]
    rw [parseScanPage_other _ _ (by decide) (by decide) (by decide)]
    rfl]
  rw [show footnoteOpen (mkOpen id b) = true from footnoteOpen_prefix _]
  simp only [Bool.false_eq_true, if_false, if_true]
  rw [copyBlockS_open_unterminated id b tail hid hb htail]
  dsimp only
  rw [show (mkOpen id b :: tail).headD [] = mkOpen id b from rfl]
  rw [show matchFnID (mkOpen id b) = some id from matchFnID_open id b hid]
  rw [show startsWithL (strL "*[Footnote") (mkOpen id b) = false from by
    rw [show strL "*[Footnote" = '*' :: strL "[Footnote" from rfl,
      show mkOpen id b = '[' :: (strL "Footnote " ++ (id ++ ':' :: ' ' :: b)) from rfl]
    exact startsWithL_cons_ne _ _ _ _ (by decide)]
  rw [show endsWithL (strL "]*") ((mkOpen id b :: tail).getLastD []) = false from by
    cases tail with
    | nil =>
      rw [show ((mkOpen id b :: ([] : List Line)).getLastD []) = mkOpen id b from rfl]
      exact endsWithL_bracketStar_noBrk _ (mem_open id b hid hb)
    | cons t0 ts =>
      rw [show ((mkOpen id b :: t0 :: ts).getLastD []) = (t0 :: ts).getLastD [] from rfl]
      have hlast : (t0 :: ts).getLastD [] ∈ t0 :: ts := by
        rw [List.getLastD_eq_getLast?]
        rcases hg : (t0 :: ts).getLast? with _ | la
        · simp at hg
        · have hla : la ∈ t0 :: ts := by
            obtain ⟨hne, heq⟩ :=
              List.mem_getLast?_eq_getLast (l := t0 :: ts) (x := la) (by simp [hg])
            rw [heq]
            exact List.getLast_mem hne
          simpa using hla
      exact endsWithL_bracketStar_noBrk _ (htail _ hlast).2]
  rw [show (mkOpen id b :: tail).map stripFnPrefix = b :: tail from by
    rw [List.map_cons]
    rw [show stripFnPrefix (mkOpen id b) = b from stripFnPrefix_open id b hid hb.1]
    rw [show tail.map stripFnPrefix = tail from by
      rw [List.map_congr_left (fun l hl => stripFnPrefix_noBrk l (htail l hl).1)]
      exact List.map_id tail]]
  rw [setLastL_id (b :: tail) stripCloseSuffix (by
    intro x hx
    rcases List.mem_cons.mp hx with rfl | hx2
    · exact stripCloseSuffix_noBrk _ hb.2
    · exact stripCloseSuffix_noBrk x (htail x hx2).2)]
  dsimp only
  simp only [Nat.zero_add, List.nil_append]
  rw [parseLoopF_nil]
  exact joinLoopF_none _ _ _

theorem c2_amended_truncated_record_witness :
    parseScanPage (pbL (strL "001.png")) = some (strL "001.png") ∧
    parseFootnotes (pbL (strL "001.png") :: mkOpen (strL "A") (strL "truncated text") ::
        [strL "more text"]) =
      .ok ([{ fnBlock := mkOpen (strL "A") (strL "truncated text") :: [strL "more text"]
              fnText := strL "truncated text" :: [strL "more text"]
              fnID := strL "A"
              startLine := 1
              endLine := 1 + 1
              paragraphEnd := some (-1)
              chapterEnd := some (-1)
              joinToPrevious := false
              joinToNext := false
              scanPageNum := some (strL "001.png") }], []) :=
  ⟨by decide,
    by
      have := c2_amended_truncated_record (strL "001.png") (strL "A")
        (strL "truncated text") [strL "more text"] (by decide) (by decide)
        (by decide) (by decide)
      simpa using this⟩

/-! ### Single-step lemmas for the parse and join loops -/

theorem setLastL_single (x : Line) (f : Line → Line) : setLastL [x] f = [f x] := rfl

theorem parseLoopF_pb (pg : Line) (rest : List Line) (f n : Nat) (csp fnID : Option Line)
    (acc : List FNRec) (hpg : parseScanPage (pbL pg) = some pg) :
    parseLoopF (f + 1) (pbL pg :: rest) n csp fnID acc =
      parseLoopF f rest (n + 1) (some pg) fnID acc := by
  rw [parseLoopF]
  rw [show isLinePageBreak (pbL pg) = true from by simp [isLinePageBreak, hpg]]
  rw [show footnoteOpen (pbL pg) = false from by
    rw [show pbL pg = '/' :: ('/' :: (' ' :: pg)) from rfl]
    exact footnoteOpen_other _ _ (by decide) (by decide)]
  simp only [if_true, Bool.false_eq_true, if_false, hpg]

theorem parseLoopF_plain (l : Line) (rest : List Line) (f n : Nat) (csp fnID : Option Line)
    (acc : List FNRec) (hpb : isLinePageBreak l = false) (hopen : footnoteOpen l = false) :
    parseLoopF (f + 1) (l :: rest) n csp fnID acc =
      parseLoopF f rest (n + 1) csp fnID acc := by
  rw [parseLoopF]
  simp only [hpb, hopen, Bool.false_eq_true, if_false]

theorem parseLoopF_fnSingle (l : Line) (theID : Line) (rest : List Line) (f n : Nat)
    (csp fnID : Option Line) (acc : List FNRec)
    (hpb : isLinePageBreak l = false) (hopen : footnoteOpen l = true)
    (hclose : (l.count '[' : Int) - (l.count ']' : Int) = 0)
    (hends : endsRBracketStars l = true)
    (hID : (match matchFnID l with | some i => some i | none => fnID) = some theID) :
    parseLoopF (f + 1) (l :: rest) n csp fnID acc =
      parseLoopF f rest (n + 1) csp (some theID)
        (acc ++ [{ fnBlock := [l]
                   fnText := [stripCloseSuffix (stripFnPrefix l)]
                   fnID := theID
                   startLine := n
                   endLine := n
                   paragraphEnd := some (-1)
                   chapterEnd := some (-1)
                   joinToPrevious := startsWithL (strL "*[Footnote") l
                   joinToNext := endsWithL (strL "]*") l
                   scanPageNum := csp }]) := by
  rw [parseLoopF]
  simp only [hpb, hopen, Bool.false_eq_true, if_false, if_true]
  rw [copyBlockS_close1 l rest 0 [l] (by omega) hends]
  dsimp only
  simp only [List.headD_cons, List.getLastD_cons, Nat.add_zero, List.map_cons, List.map_nil]
  rw [hID, setLastL_single]
  simp only [List.getLastD_nil]

theorem findToFnF_stop (fuel : Nat) (fns : List FNRec) (pg : Option Line) (t : Int)
    (k : Nat) (r : FNRec) (hk : pyIdx fns.length t = some k) (hr : fns.get? k = some r)
    (hstop : ¬(r.joinToNext = false ∧ r.scanPageNum = pg)) :
    findToFnF (fuel + 1) fns pg t = .ok k := by
  rw [findToFnF, hk]
  dsimp only
  rw [hr]
  dsimp only
  rw [if_neg hstop]

/-- One joining step for the basic two-record shape: the second record is a
fragment, the first carries `joinToNext`; the backward search stops at index
0 immediately. -/
theorem joinLoopF_pair (fuel : Nat) (r1 r2 merged : FNRec) (errs errs2 : List LogErr)
    (bh1 bh2 : Line)
    (h2N : r2.joinToNext = false) (h2P : r2.joinToPrevious = true)
    (h1N : r1.joinToNext = true)
    (hb1 : r1.fnBlock.head? = some bh1) (hb2 : r2.fnBlock.head? = some bh2)
    (hmerge : mergeRecords r1 r2 false = .ok (merged, errs2)) :
    joinLoopF (fuel + 1 + 1) [r1, r2] 1 errs = .ok ([merged], errs ++ errs2) := by
  show joinLoopF ((fuel + 1) + 1) [r1, r2] (0 + 1) errs = _
  rw [joinLoopF]
  rw [show ([r1, r2].get? (0 + 1)) = some r2 from rfl]
  dsimp only
  rw [h2N]
  simp only [Bool.false_eq_true, if_false]
  rw [h2P]
  simp only [if_true]
  rw [show ([r1, r2].get? 0) = some r1 from rfl]
  dsimp only
  rw [show (2 * ([r1, r2] : List FNRec).length + 4) = (2 * ([r1, r2] : List FNRec).length + 3) + 1
    from rfl]
  rw [findToFnF_stop _ [r1, r2] r1.scanPageNum (((0 : Nat) : Int)) 0 r1 rfl rfl
    (by simp [h1N])]
  dsimp only
  rw [show ([r1, r2].get? 0) = some r1 from rfl]
  dsimp only
  rw [hb1, hb2]
  dsimp only
  rw [h1N]
  simp only [Bool.not_true, Bool.false_eq_true, if_false]
  rw [show ((0 : Nat) == 0 + 1) = false from rfl]
  rw [hmerge]
  dsimp only
  rw [show (([r1, r2].set 0 merged).eraseIdx 1) = [merged] from rfl]
  exact joinLoopF_none fuel [merged] (errs ++ errs2)

theorem endsRBracketStars_bracket (t : Line) :
    endsRBracketStars (t ++ [']']) = true := by
  rw [endsRBracketStars, List.reverse_append]
  simp [List.dropWhile]

theorem endsRBracketStars_bracketStar (t : Line) :
    endsRBracketStars (t ++ strL "]*") = true := by
  rw [endsRBracketStars]
  rw [show t ++ strL "]*" = (t ++ [']']) ++ ['*'] by
    rw [show strL "]*" = [']'] ++ ['*'] from rfl, ← List.append_assoc]]
  rw [List.reverse_append, List.reverse_append]
  simp [List.dropWhile]

/-! ### C3: the join target search does not require a different scan page -/

/-- C3 counterexample: a footnote ending `]*` and a continuation fragment on
the SAME scan page.  There is no preceding record on a different scan page,
yet the two records are merged into one with no reported error, where the
claim requires the merge target to lie on a different scan page (and its
failure semantics would leave two records plus an error otherwise). -/
theorem c3_counterexample_same_page_merge :
    parseFootnotes [strL "// 001.png", strL "[Footnote A: word]*", strL "*[Footnote: rest]"] =
      .ok ([{ fnBlock := [strL "[Footnote A: word]*", strL "*[Footnote: rest]"]
              fnText := [strL "word", strL "rest"]
              fnID := strL "A"
              startLine := 1
              endLine := 1
              paragraphEnd := some (-1)
              chapterEnd := some (-1)
              joinToPrevious := false
              joinToNext := false
              scanPageNum := some (strL "001.png") }], []) := by decide

/-- C3 amended: a fragment with `joinsToPrevious` is merged into the nearest
preceding record found by the backward search (which accepts the immediately
preceding record whenever its `joinsToNext` flag is set, with no
different-page requirement); in particular a footnote split across one page
boundary yields exactly one record, whose block lines and body are the
in-order concatenation of the two fragments, with `joinsToNext` cleared and
the fragment record deleted. -/
theorem c3_amended_nearest_join (pgA pgB id b1 b2 : Line)
    (hpgA : parseScanPage (pbL pgA) = some pgA)
    (hpgB : parseScanPage (pbL pgB) = some pgB)
    (hid : idOk1 id = true) (hb1 : noBrk b1) (hb2 : noBrk b2)
    (hhyph : hyphenTrigger b1 = false) :
    parseFootnotes [pbL pgA, mkOpen id b1 ++ strL "]*", pbL pgB,
        strL "*[Footnote: " ++ (b2 ++ [']'])] =
      .ok ([{ fnBlock := [mkOpen id b1 ++ strL "]*", strL "*[Footnote: " ++ (b2 ++ [']'])]
              fnText := [b1, b2]
              fnID := id
              startLine := 1
              endLine := 1
              paragraphEnd := some (-1)
              chapterEnd := some (-1)
              joinToPrevious := false
              joinToNext := false
              scanPageNum := some pgA }], []) := by
  have hl1canon : mkOpen id b1 ++ strL "]*" =
      strL "[Footnote " ++ (id ++ ':' :: ' ' :: (b1 ++ strL "]*")) := by
    simp [mkOpen, List.append_assoc]
  have hnb1 : '[' ∉ b1 ++ strL "]*" := by
    intro hm
    rcases List.mem_append.mp hm with hm | hm
    · exact hb1.1 hm
    · simp [strL] at hm
  have hnb2 : '[' ∉ b2 ++ [']'] := by
    intro hm
    rcases List.mem_append.mp hm with hm | hm
    · exact hb2.1 hm
    · simp at hm
  have h1pb : isLinePageBreak (mkOpen id b1 ++ strL "]*") = false := by
    rw [show mkOpen id b1 ++ strL "]*" =
      '[' :: ((strL "Footnote " ++ (id ++ ':' :: ' ' :: b1)) ++ strL "]*") from rfl]
    rw [isLinePageBreak, parseScanPage_other _ _ (by decide) (by decide) (by decide)]
    rfl
  have h1open : footnoteOpen (mkOpen id b1 ++ strL "]*") = true := by
    rw [hl1canon]; exact footnoteOpen_prefix _
  have h1cntL : (mkOpen id b1 ++ strL "]*").count '[' = 1 := by
    rw [List.count_append, count_open_left id b1 hid hb1]; decide
  have h1cntR : (mkOpen id b1 ++ strL "]*").count ']' = 1 := by
    rw [List.count_append, count_open_right id b1 hid hb1]; decide
  have h1id : matchFnID (mkOpen id b1 ++ strL "]*") = some id := by
    rw [hl1canon]; exact matchFnID_open id _ hid
  have h1jP : startsWithL (strL "*[Footnote") (mkOpen id b1 ++ strL "]*") = false := by
    rw [show mkOpen id b1 ++ strL "]*" =
      '[' :: ((strL "Footnote " ++ (id ++ ':' :: ' ' :: b1)) ++ strL "]*") from rfl]
    rw [show strL "*[Footnote" = '*' :: strL "[Footnote" from rfl]
    exact startsWithL_cons_ne _ _ _ _ (by decide)
  have h1jN : endsWithL (strL "]*") (mkOpen id b1 ++ strL "]*") = true :=
    endsWithL_bracketStar (mkOpen id b1)
  have h1text : stripCloseSuffix (stripFnPrefix (mkOpen id b1 ++ strL "]*")) = b1 := by
    rw [hl1canon, stripFnPrefix_open id _ hid hnb1]
    exact stripCloseSuffix_bracketStar b1
  have h2star : startsWithL (strL "*[Footnote") (strL "*[Footnote: " ++ (b2 ++ [']'])) = true := by
    rw [show strL "*[Footnote: " ++ (b2 ++ [']']) =
      strL "*[Footnote" ++ (strL ": " ++ (b2 ++ [']'])) from rfl]
    exact startsWithL_append _ _
  have h2pb : isLinePageBreak (strL "*[Footnote: " ++ (b2 ++ [']'])) = false := by
    rw [show strL "*[Footnote: " ++ (b2 ++ [']']) =
      '*' :: (strL "[Footnote: " ++ (b2 ++ [']'])) from rfl]
    rw [isLinePageBreak, parseScanPage_other _ _ (by decide) (by decide) (by decide)]
    rfl
  have h2open : footnoteOpen (strL "*[Footnote: " ++ (b2 ++ [']'])) = true :=
    footnoteOpen_of_star _ h2star
  have h2id : matchFnID (strL "*[Footnote: " ++ (b2 ++ [']'])) = none :=
    matchFnID_star_none _ h2star
  have h2cntL : (strL "*[Footnote: " ++ (b2 ++ [']'])).count '[' = 1 := by
    rw [List.count_append, List.count_append, List.count_eq_zero.mpr hb2.1]; decide
  have h2cntR : (strL "*[Footnote: " ++ (b2 ++ [']'])).count ']' = 1 := by
    rw [List.count_append, List.count_append, List.count_eq_zero.mpr hb2.2]; decide
  have h2ends : endsRBracketStars (strL "*[Footnote: " ++ (b2 ++ [']'])) = true := by
    rw [← List.append_assoc]
    exact endsRBracketStars_bracket _
  have h2jN : endsWithL (strL "]*") (strL "*[Footnote: " ++ (b2 ++ [']'])) = false := by
    rw [← List.append_assoc]
    exact endsWithL_bracket_false _
  have h2text : stripCloseSuffix (stripFnPrefix (strL "*[Footnote: " ++ (b2 ++ [']']))) = b2 := by
    rw [stripFnPrefix_cont (b2 ++ [']']) hnb2]
    exact stripCloseSuffix_bracket b2
  rw [parseFootnotes]
  rw [parseLoopF_pb pgA _ _ 0 none none [] hpgA]
  rw [show ([pbL pgA, mkOpen id b1 ++ strL "]*", pbL pgB,
      strL "*[Footnote: " ++ (b2 ++ [']'])] : List Line).length =
    ([mkOpen id b1 ++ strL "]*", pbL pgB,
      strL "*[Footnote: " ++ (b2 ++ [']'])] : List Line).length + 1 from rfl]
  rw [parseLoopF_fnSingle _ id _ _ 1 (some pgA) none [] h1pb h1open
    (by rw [h1cntL, h1cntR]; decide) (endsRBracketStars_bracketStar (mkOpen id b1))
    (by rw [h1id])]
  rw [show ([mkOpen id b1 ++ strL "]*", pbL pgB,
      strL "*[Footnote: " ++ (b2 ++ [']'])] : List Line).length =
    ([pbL pgB, strL "*[Footnote: " ++ (b2 ++ [']'])] : List Line).length + 1 from rfl]
  rw [parseLoopF_pb pgB _ _ 2 (some pgA) (some id) _ hpgB]
  rw [show ([pbL pgB, strL "*[Footnote: " ++ (b2 ++ [']'])] : List Line).length =
    ([strL "*[Footnote: " ++ (b2 ++ [']'])] : List Line).length + 1 from rfl]
  rw [parseLoopF_fnSingle _ id _ _ 3 (some pgB) (some id) _ h2pb h2open
    (by rw [h2cntL, h2cntR]; decide) h2ends (by rw [h2id])]
  rw [show ([strL "*[Footnote: " ++ (b2 ++ [']'])] : List Line).length =
    ([] : List Line).length + 1 from rfl]
  rw [parseLoopF_nil]
  dsimp only
  rw [h1jP, h1jN, h1text, h2star, h2jN, h2text]
  simp only [List.nil_append]
  refine joinLoopF_pair 1 _ _ _ [] [] _ _ rfl rfl rfl rfl rfl ?_
  rw [mergeRecords]
  dsimp only
  rw [show List.getLast? [b1] = some b1 from rfl]
  dsimp only
  rw [hhyph]
  simp

/-- Witness for C3 amended: a concrete footnote split across pages 001/002
joins into exactly one record. -/
theorem c3_amended_nearest_join_witness :
    parseFootnotes [pbL (strL "001.png"),
        mkOpen (strL "A") (strL "word") ++ strL "]*",
        pbL (strL "002.png"),
        strL "*[Footnote: " ++ (strL "rest" ++ [']'])] =
      .ok ([{ fnBlock := [mkOpen (strL "A") (strL "word") ++ strL "]*",
                strL "*[Footnote: " ++ (strL "rest" ++ [']'])]
              fnText := [strL "word", strL "rest"]
              fnID := strL "A"
              startLine := 1
              endLine := 1
              paragraphEnd := some (-1)
              chapterEnd := some (-1)
              joinToPrevious := false
              joinToNext := false
              scanPageNum := some (strL "001.png") }], []) :=
  c3_amended_nearest_join (strL "001.png") (strL "002.png") (strL "A")
    (strL "word") (strL "rest") (by decide) (by decide) (by decide)
    (by decide) (by decide) (by decide)

/-- C4 counterexample: a body ending in `word-*` joined with a continuation
body starting `*inued rest of text` does NOT yield the single line
`wordinued rest of text`; the first word is appended verbatim — asterisks
and hyphen included — giving `word-**inued`, and the remainder of the
fragment line stays a separate line. -/
theorem c4_counterexample_residual_star :
    parseFootnotes [strL "// 001.png", strL "[Footnote A: word-*]*",
        strL "// 002.png", strL "*[Footnote: *inued rest of text]"] =
      .ok ([{ fnBlock := [strL "[Footnote A: word-*]*",
                strL "*[Footnote: *inued rest of text]"]
              fnText := [strL "word-**inued", strL "rest of text"]
              fnID := strL "A"
              startLine := 1
              endLine := 1
              paragraphEnd := some (-1)
              chapterEnd := some (-1)
              joinToPrevious := false
              joinToNext := false
              scanPageNum := some (strL "001.png") }], [])
    ∧ [strL "word-**inued", strL "rest of text"] ≠
        [strL "wordinued rest of text"] := by decide

/-- C4 amended: when the absorbing body's last line triggers the hyphen rule
and the fragment body's first line begins with an asterisk, the fragment's
first space-delimited word (asterisk included) is concatenated verbatim onto
the absorbing line (which keeps its trailing hyphen/asterisk); the rest of
the fragment's first line survives as its own line, except that a one-word
first line is dropped entirely. -/
theorem c4_amended_splice_verbatim (r1 r2 : FNRec) (toLast w : Line)
    (rest : List Line)
    (hlast : r1.fnText.getLast? = some toLast)
    (hhy : hyphenTrigger toLast = true)
    (hfrag : r2.fnText = ('*' :: w) :: rest) :
    mergeRecords r1 r2 false =
      .ok ({ r1 with
              fnBlock := r1.fnBlock ++ r2.fnBlock
              fnText := (r1.fnText.dropLast ++
                  [toLast ++ (pySplit1 ('*' :: w)).1]) ++
                (match (pySplit1 ('*' :: w)).2 with
                 | some restL => restL :: rest
                 | none => rest)
              joinToNext := false }, []) := by
  rw [mergeRecords, hlast]
  dsimp only
  rw [hhy, hfrag]
  simp

/-- Witness for C4 amended: splicing `*inued rest of text` onto `word-*`
produces the lines `word-**inued` and `rest of text`. -/
theorem c4_amended_splice_verbatim_witness :
    mergeRecords
      { fnBlock := [strL "x"]
        fnText := [strL "word-*"]
        fnID := strL "A"
        startLine := 1
        endLine := 1
        paragraphEnd := some (-1)
        chapterEnd := some (-1)
        joinToPrevious := false
        joinToNext := true
        scanPageNum := some (strL "001.png") }
      { fnBlock := [strL "y"]
        fnText := [strL "*inued rest of text"]
        fnID := strL "A"
        startLine := 3
        endLine := 3
        paragraphEnd := some (-1)
        chapterEnd := some (-1)
        joinToPrevious := true
        joinToNext := false
        scanPageNum := some (strL "002.png") }
      false =
      .ok ({ fnBlock := [strL "x", strL "y"]
             fnText := [strL "word-**inued", strL "rest of text"]
             fnID := strL "A"
             startLine := 1
             endLine := 1
             paragraphEnd := some (-1)
             chapterEnd := some (-1)
             joinToPrevious := false
             joinToNext := false
             scanPageNum := some (strL "001.png") }, []) :=
  c4_amended_splice_verbatim _ _ (strL "word-*") (strL "inued rest of text")
    [] rfl (by decide) rfl

/-- C8: for any buffer and record list, a footnote destination that is none
of bookend, chapterend, paragraphend or inplace makes the markup emitter
report a configuration error and return the buffer unchanged. -/
theorem c8_unrecognized_destination (inBuf : List Line) (footnotes : List FNRec)
    (dest lzdestt lzdesth : String) (auto : Bool)
    (h1 : dest ≠ "bookend") (h2 : dest ≠ "chapterend")
    (h3 : dest ≠ "paragraphend") (h4 : dest ≠ "inplace") :
    generatePpgenFootnoteMarkup inBuf footnotes dest lzdestt lzdesth auto =
      .ok (inBuf, [.unrecognizedFndest dest]) := by
  rw [generatePpgenFootnoteMarkup]
  simp [h1, h2, h3, h4]

/-- Witness for C8: destination "margin" is rejected and the buffer is
returned as given. -/
theorem c8_unrecognized_destination_witness :
    generatePpgenFootnoteMarkup [strL "a", strL "b"] [] "margin" "" "" false =
      .ok ([strL "a", strL "b"], [.unrecognizedFndest "margin"]) :=
  c8_unrecognized_destination [strL "a", strL "b"] [] "margin" "" "" false
    (by decide) (by decide) (by decide) (by decide)

/-- C6 counterexample: with anchors `[A]`, `[B]`, `[A]` on one scan page, the
second occurrence of `[A]` is rewritten with the current value of the global
counter — the number just assigned to `[B]` — not with the number assigned
to the first occurrence of `[A]`: the line `v [A].` becomes `v [2].`, not
`v [1].` (the counter itself is indeed not incremented, ending at 2). -/
theorem c6_counterexample_duplicate_gets_current_counter :
    processFootnoteAnchors
      [strL "// 001.png", strL "t [A] u [B].", strL "v [A]."]
      [{ fnBlock := [strL "[Footnote A: x]"]
         fnText := [strL "x"]
         fnID := strL "A"
         startLine := 1
         endLine := 1
         paragraphEnd := some (-1)
         chapterEnd := some (-1)
         joinToPrevious := false
         joinToNext := false
         scanPageNum := some (strL "001.png") },
       { fnBlock := [strL "[Footnote B: y]"]
         fnText := [strL "y"]
         fnID := strL "B"
         startLine := 1
         endLine := 1
         paragraphEnd := some (-1)
         chapterEnd := some (-1)
         joinToPrevious := false
         joinToNext := false
         scanPageNum := some (strL "001.png") }] false =
      .ok (([strL "// 001.png", strL "t [1] u [2].", strL "v [2]."],
            [{ fnBlock := [strL "[Footnote A: x]"]
               fnText := [strL "x"]
               fnID := strL "A"
               startLine := 1
               endLine := 1
               paragraphEnd := none
               chapterEnd := some (-1)
               joinToPrevious := false
               joinToNext := false
               scanPageNum := some (strL "001.png") },
             { fnBlock := [strL "[Footnote B: y]"]
               fnText := [strL "y"]
               fnID := strL "B"
               startLine := 1
               endLine := 1
               paragraphEnd := none
               chapterEnd := some (-1)
               joinToPrevious := false
               joinToNext := false
               scanPageNum := some (strL "001.png") }], 2), [])
    ∧ strL "v [2]." ≠ strL "v [1]." := by decide

/-- C6 amended: without autonumbering, an anchor id already seen on the
current page does not increment the global counter and is rewritten with the
counter's CURRENT value (the number most recently assigned to any new
anchor), which equals the first occurrence's number only if no other new
anchor intervened; the seen-anchor list and error list are unchanged. -/
theorem c6_amended_duplicate_keeps_counter (lineNum : Nat) (st : AnchSt)
    (a : Line) (atpList : List Line) (ci : Nat) (fcur : FNRec) (buf1 : List Line)
    (hmem : a ∈ st.fnIDs) (hatp : st.atp = some atpList)
    (hdup : mkPat a ∈ atpList)
    (hidx : pyIdx st.fns.length ((st.count : Int) - 1) = some ci)
    (hget : st.fns.get? ci = some fcur)
    (hpage : st.csp = fcur.scanPageNum)
    (hline : st.buf.set lineNum
        (pyReSubAll ('[' :: (a ++ [']'])) ('[' :: (natL st.count ++ [']']))
          (st.buf.getD lineNum [])) = buf1)
    (hch : findNextChapter buf1 lineNum = none) :
    anchorStep lineNum false st a =
      .ok { buf := buf1
            fns := st.fns.set ci
              { fcur with paragraphEnd :=
                  (findNextEmptyLine buf1 lineNum).map (fun n => (n : Int)) }
            csp := st.csp
            fnIDs := st.fnIDs
            atp := some atpList
            count := st.count
            errs := st.errs } := by
  rw [anchorStep, if_pos hmem, hatp]
  dsimp only
  simp only [hdup, not_true, if_false, Bool.false_eq_true, if_neg]
  rw [hidx]
  dsimp only
  rw [hget]
  dsimp only
  rw [if_neg (by rw [hpage]; simp)]
  rw [hline, hch]

/-- Witness for C6 amended: a repeated `[A]` with the counter at 1 is
rewritten to `[1]` and the counter stays 1. -/
theorem c6_amended_duplicate_keeps_counter_witness :
    anchorStep 0 false
      { buf := [strL "v [A]."]
        fns := [{ fnBlock := [strL "[Footnote A: x]"]
                  fnText := [strL "x"]
                  fnID := strL "A"
                  startLine := 1
                  endLine := 1
                  paragraphEnd := some (-1)
                  chapterEnd := some (-1)
                  joinToPrevious := false
                  joinToNext := false
                  scanPageNum := some (strL "001.png") }]
        csp := some (strL "001.png")
        fnIDs := [strL "A"]
        atp := some [mkPat (strL "A")]
        count := 1
        errs := [] } (strL "A") =
      .ok { buf := [strL "v [1]."]
            fns := [{ fnBlock := [strL "[Footnote A: x]"]
                      fnText := [strL "x"]
                      fnID := strL "A"
                      startLine := 1
                      endLine := 1
                      paragraphEnd := none
                      chapterEnd := some (-1)
                      joinToPrevious := false
                      joinToNext := false
                      scanPageNum := some (strL "001.png") }]
            csp := some (strL "001.png")
            fnIDs := [strL "A"]
            atp := some [mkPat (strL "A")]
            count := 1
            errs := [] } :=
  c6_amended_duplicate_keeps_counter 0
    { buf := [strL "v [A]."]
      fns := [{ fnBlock := [strL "[Footnote A: x]"]
                fnText := [strL "x"]
                fnID := strL "A"
                startLine := 1
                endLine := 1
                paragraphEnd := some (-1)
                chapterEnd := some (-1)
                joinToPrevious := false
                joinToNext := false
                scanPageNum := some (strL "001.png") }]
      csp := some (strL "001.png")
      fnIDs := [strL "A"]
      atp := some [mkPat (strL "A")]
      count := 1
      errs := [] } (strL "A") [mkPat (strL "A")] 0
    { fnBlock := [strL "[Footnote A: x]"]
      fnText := [strL "x"]
      fnID := strL "A"
      startLine := 1
      endLine := 1
      paragraphEnd := some (-1)
      chapterEnd := some (-1)
      joinToPrevious := false
      joinToNext := false
      scanPageNum := some (strL "001.png") }
    [strL "v [1]."] (by decide) rfl (by decide) (by decide) rfl (by decide)
    (by decide) (by decide)

theorem anchorStep_unmatched (lineNum : Nat) (auto : Bool) (st : AnchSt) (a : Line)
    (h : a ∉ st.fnIDs) :
    anchorStep lineNum auto st a =
      .ok { st with errs := st.errs ++ [.unmatchedAnchor a] } := by
  rw [anchorStep, if_neg h]

theorem foldl_anchorStep_unmatched (lineNum : Nat) (auto : Bool) :
    ∀ (as : List Line) (st : AnchSt), (∀ a ∈ as, a ∉ st.fnIDs) →
      as.foldlM (anchorStep lineNum auto) st =
        .ok { st with errs := st.errs ++ as.map LogErr.unmatchedAnchor }
  | [], st, _ => by
    simp only [List.foldlM, List.map_nil, List.append_nil]
    rfl
  | a :: as, st, h => by
    rw [List.foldlM_cons, anchorStep_unmatched lineNum auto st a (h a (by simp))]
    rw [show ((Except.ok { st with errs := st.errs ++ [LogErr.unmatchedAnchor a] } :
        Except PyErr AnchSt) >>= fun s => as.foldlM (anchorStep lineNum auto) s) =
      as.foldlM (anchorStep lineNum auto)
        { st with errs := st.errs ++ [LogErr.unmatchedAnchor a] } from rfl]
    rw [foldl_anchorStep_unmatched lineNum auto as
      { st with errs := st.errs ++ [LogErr.unmatchedAnchor a] }
      (fun x hx => h x (List.mem_cons_of_mem a hx))]
    simp

theorem anchorLoopF_unmatched (auto : Bool) (rest : List Line) :
    ∀ (fuel lineNum : Nat) (st : AnchSt),
      st.buf.drop lineNum = rest → rest.length < fuel →
      allUnmatchedB st.fns st.fnIDs rest = true →
      ∃ st2, anchorLoopF fuel auto lineNum st = .ok st2 ∧
        st2.buf = st.buf ∧ st2.fns = st.fns ∧ st2.count = st.count ∧
        st2.errs = st.errs ++ expectedUnmatched rest := by
  induction rest with
  | nil =>
    intro fuel lineNum st hdrop hfuel _
    match fuel, hfuel with
    | f + 1, _ =>
      refine ⟨st, ?_, rfl, rfl, rfl, by simp [expectedUnmatched]⟩
      rw [anchorLoopF, if_neg (by
        have hle := List.drop_eq_nil_iff_le.mp hdrop
        omega)]
  | cons line rest ih =>
    intro fuel lineNum st hdrop hfuel hall
    match fuel, hfuel with
    | f + 1, hfuel =>
      have hlt : lineNum < st.buf.length := by
        by_contra hh
        have h0 := List.drop_eq_nil_of_le (Nat.le_of_not_lt hh)
        rw [hdrop] at h0
        simp at h0
      have hget : st.buf.getD lineNum [] = line := by
        have h0 : (st.buf.drop lineNum)[0]? = some line := by rw [hdrop]; simp
        rw [List.getElem?_drop] at h0
        have h1 : st.buf[lineNum]? = some line := by simpa using h0
        simp [List.getD_eq_getElem?_getD, h1]
      have hdrop2 : st.buf.drop (lineNum + 1) = rest := by
        rw [← List.drop_drop, hdrop, List.drop_one]
        rfl
      rw [allUnmatchedB] at hall
      rw [anchorLoopF, if_pos hlt]
      dsimp only
      rw [hget]
      by_cases hpb : isLinePageBreak line
      · rw [if_pos hpb]
        rw [if_pos hpb] at hall
        dsimp only
        rw [hget]
        rw [Bool.and_eq_true] at hall
        have hone : ∀ a ∈ findAnchors line,
            a ∉ pageIDs st.fns (parseScanPage line) := by
          intro a ha
          have := List.all_eq_true.mp hall.1 a ha
          simpa using this
        rw [foldl_anchorStep_unmatched lineNum auto (findAnchors line) _ hone]
        dsimp only
        obtain ⟨st3, heq, hbuf, hfns, hcount, herrs⟩ :=
          ih f (lineNum + 1)
            { st with
                atp := some []
                csp := parseScanPage line
                fnIDs := pageIDs st.fns (parseScanPage line)
                errs := st.errs ++ (findAnchors line).map LogErr.unmatchedAnchor }
            hdrop2 (by simpa using hfuel) hall.2
        refine ⟨st3, heq, hbuf, hfns, hcount, ?_⟩
        rw [herrs]
        simp [expectedUnmatched]
      · rw [if_neg hpb]
        rw [if_neg hpb] at hall
        rw [hget]
        rw [Bool.and_eq_true] at hall
        have hone : ∀ a ∈ findAnchors line, a ∉ st.fnIDs := by
          intro a ha
          have := List.all_eq_true.mp hall.1 a ha
          simpa using this
        rw [foldl_anchorStep_unmatched lineNum auto (findAnchors line) _ hone]
        dsimp only
        obtain ⟨st3, heq, hbuf, hfns, hcount, herrs⟩ :=
          ih f (lineNum + 1)
            { st with errs := st.errs ++ (findAnchors line).map LogErr.unmatchedAnchor }
            hdrop2 (by simpa using hfuel) hall.2
        refine ⟨st3, heq, hbuf, hfns, hcount, ?_⟩
        rw [herrs]
        simp [expectedUnmatched]

/-- C5: on a buffer all of whose bracketed short-token anchors have ids with
no footnote record on the scan page current at their line, the anchor
resolver returns the buffer completely unchanged, leaves the record list and
the counter untouched, and reports exactly one unmatched-anchor error per
anchor occurrence, in document order. -/
theorem c5_unmatched_anchors_reported (inBuf : List Line) (fns : List FNRec)
    (auto : Bool) (hall : allUnmatchedB fns [] inBuf = true) :
    processFootnoteAnchors inBuf fns auto =
      .ok ((inBuf, fns, 0), expectedUnmatched inBuf) := by
  rw [processFootnoteAnchors]
  obtain ⟨st2, heq, hbuf, hfns, hcount, herrs⟩ :=
    anchorLoopF_unmatched auto inBuf (inBuf.length + 1) 0
      { buf := inBuf
        fns := fns
        csp := none
        fnIDs := []
        atp := none
        count := 0
        errs := [] }
      (by simp) (by simp) hall
  rw [heq]
  dsimp only
  rw [hbuf, hfns, hcount, herrs]
  simp

/-- Witness for C5: one anchor `[A]` with no footnote records at all yields
one unmatched-anchor error and an unchanged buffer. -/
theorem c5_unmatched_anchors_reported_witness :
    processFootnoteAnchors [strL "// 001.png", strL "see [A]."] [] false =
      .ok (([strL "// 001.png", strL "see [A]."], [], 0),
           [.unmatchedAnchor (strL "A")]) :=
  c5_unmatched_anchors_reported [strL "// 001.png", strL "see [A]."] [] false
    (by decide)

theorem pyNorm_natCast (len n : Nat) (h : n ≤ len) : pyNorm len (n : Int) = n := by
  rw [pyNorm, if_neg (by omega)]
  simp
  omega

theorem insertLinesAt_front (A : List Line) (B xs : List Line) (n : Nat)
    (h : n = A.length) : insertLinesAt n xs (A ++ B) = A ++ (xs ++ B) := by
  subst h
  rw [insertLinesAt, List.take_append_of_le_length (Nat.le_refl _),
    List.take_length, List.drop_append_of_le_length (Nat.le_refl _),
    List.drop_length, List.nil_append, List.append_assoc]

/-- C9 counterexample: with footnotes ending chapters at lines 2 and 4 of a
four-line buffer, the chapterend destination inserts the `.fm` marker
immediately BEFORE each directive group, not after it: the line following
the chapter-1 group (index 9) is the original text `B1`, not `.fm`. -/
theorem c9_counterexample_fm_not_terminator :
    generatePpgenFootnoteMarkup [strL "A1", strL "A2", strL "B1", strL "B2"]
      [{ fnBlock := [strL "x"]
         fnText := [strL "f1"]
         fnID := strL "A"
         startLine := 1
         endLine := 1
         paragraphEnd := some (-1)
         chapterEnd := some 2
         joinToPrevious := false
         joinToNext := false
         scanPageNum := some (strL "001.png") },
       { fnBlock := [strL "x"]
         fnText := [strL "f2"]
         fnID := strL "B"
         startLine := 1
         endLine := 1
         paragraphEnd := some (-1)
         chapterEnd := some 2
         joinToPrevious := false
         joinToNext := false
         scanPageNum := some (strL "001.png") },
       { fnBlock := [strL "x"]
         fnText := [strL "f3"]
         fnID := strL "C"
         startLine := 1
         endLine := 1
         paragraphEnd := some (-1)
         chapterEnd := some 4
         joinToPrevious := false
         joinToNext := false
         scanPageNum := some (strL "001.png") }] "chapterend" "" "" false =
      .ok ([strL "A1", strL "A2", strL ".fm",
            strL ".fn 1  // 001.png", strL "f1", strL ".fn-",
            strL ".fn 2  // 001.png", strL "f2", strL ".fn-",
            strL "B1", strL "B2", strL ".fm",
            strL ".fn 3  // 001.png", strL "f3", strL ".fn-"], [])
    ∧ [strL "A1", strL "A2", strL ".fm",
       strL ".fn 1  // 001.png", strL "f1", strL ".fn-",
       strL ".fn 2  // 001.png", strL "f2", strL ".fn-",
       strL "B1", strL "B2", strL ".fm",
       strL ".fn 3  // 001.png", strL "f3", strL ".fn-"].getD 9 [] ≠
        strL ".fm" := by decide

/-- C9 amended: under destination chapterend, directive blocks are grouped by
their record's chapterEnd index and inserted immediately before that
position, groups being processed from the highest insertion index first so
earlier insertions do not shift pending insertion points; but the `.fm`
group marker is inserted immediately BEFORE each group (it opens rather than
terminates the group). -/
theorem c9_amended_fm_precedes_group (buf : List Line) (r1 r2 r3 : FNRec)
    (auto : Bool) (g1 g2 g3 : List Line) (c1 c2 : Nat)
    (h1 : r1.chapterEnd = some (c1 : Int))
    (h2 : r2.chapterEnd = some (c1 : Int))
    (h3 : r3.chapterEnd = some (c2 : Int))
    (hc : c1 < c2) (hlen : c2 ≤ buf.length)
    (hg1 : g1 = (if auto then fnHeadAuto r1 else fnHeadPg (0 + 1) r1) :: r1.fnText ++ [strL ".fn-"])
    (hg2 : g2 = (if auto then fnHeadAuto r2 else fnHeadPg (1 + 1) r2) :: r2.fnText ++ [strL ".fn-"])
    (hg3 : g3 = (if auto then fnHeadAuto r3 else fnHeadPg (2 + 1) r3) :: r3.fnText ++ [strL ".fn-"]) :
    generatePpgenFootnoteMarkup buf [r1, r2, r3] "chapterend" "" "" auto =
      .ok (buf.take c1 ++ ([strL ".fm"] ++ (g1 ++ (g2 ++
          ((buf.take c2).drop c1 ++ ([strL ".fm"] ++ (g3 ++ buf.drop c2)))))), []) := by
  have hc1len : c1 ≤ buf.length := Nat.le_trans (Nat.le_of_lt hc) hlen
  have htake2len : (buf.take c2).length = c2 := by rw [List.length_take]; omega
  have htake1len : (buf.take c1).length = c1 := by rw [List.length_take]; omega
  have hsplit : buf.take c2 = buf.take c1 ++ (buf.take c2).drop c1 := by
    conv_lhs => rw [← List.take_append_drop c1 (buf.take c2)]
    rw [List.take_take, min_eq_left (Nat.le_of_lt hc)]
  have e1 : pySliceIns buf r3.chapterEnd g3 = buf.take c2 ++ (g3 ++ buf.drop c2) := by
    rw [h3, pySliceIns, pyNorm_natCast buf.length c2 hlen]
    conv_lhs => rw [show buf = buf.take c2 ++ buf.drop c2 from (List.take_append_drop c2 buf).symm]
    exact insertLinesAt_front _ _ _ _ htake2len.symm
  have e2 : pyInsertOne (buf.take c2 ++ (g3 ++ buf.drop c2)) r3.chapterEnd (strL ".fm") =
      .ok (buf.take c2 ++ ([strL ".fm"] ++ (g3 ++ buf.drop c2))) := by
    rw [h3, pyInsertOne, pyNorm_natCast _ c2 (by simp [htake2len])]
    rw [insertLinesAt_front _ _ _ _ htake2len.symm]
  have e3 : pySliceIns (buf.take c2 ++ ([strL ".fm"] ++ (g3 ++ buf.drop c2)))
      r2.chapterEnd g2 =
      buf.take c1 ++ (g2 ++ ((buf.take c2).drop c1 ++
        ([strL ".fm"] ++ (g3 ++ buf.drop c2)))) := by
    rw [h2, pySliceIns, pyNorm_natCast _ c1 (by simp [htake2len]; omega)]
    conv_lhs => rw [hsplit, List.append_assoc]
    rw [insertLinesAt_front _ _ _ _ htake1len.symm]
  have e4 : pySliceIns (buf.take c1 ++ (g2 ++ ((buf.take c2).drop c1 ++
      ([strL ".fm"] ++ (g3 ++ buf.drop c2))))) r2.chapterEnd g1 =
      buf.take c1 ++ (g1 ++ (g2 ++ ((buf.take c2).drop c1 ++
        ([strL ".fm"] ++ (g3 ++ buf.drop c2))))) := by
    rw [h2, pySliceIns, pyNorm_natCast _ c1 (by simp [htake1len])]
    rw [insertLinesAt_front _ _ _ _ htake1len.symm]
  have e5 : pyInsertOne (buf.take c1 ++ (g1 ++ (g2 ++ ((buf.take c2).drop c1 ++
      ([strL ".fm"] ++ (g3 ++ buf.drop c2)))))) r2.chapterEnd (strL ".fm") =
      .ok (buf.take c1 ++ ([strL ".fm"] ++ (g1 ++ (g2 ++
        ((buf.take c2).drop c1 ++ ([strL ".fm"] ++ (g3 ++ buf.drop c2))))))) := by
    rw [h2, pyInsertOne, pyNorm_natCast _ c1 (by simp [htake1len])]
    rw [insertLinesAt_front _ _ _ _ htake1len.symm]
  have hne23 : r3.chapterEnd ≠ r2.chapterEnd := by rw [h2, h3]; simp; omega
  have hloop : chapterendLoop (strL ".fm") auto [(2, r3), (1, r2), (0, r1)]
      r3.chapterEnd buf =
      .ok (r2.chapterEnd, buf.take c1 ++ (g1 ++ (g2 ++ ((buf.take c2).drop c1 ++
        ([strL ".fm"] ++ (g3 ++ buf.drop c2)))))) := by
    rw [chapterendLoop, if_neg (by simp)]
    dsimp only
    rw [if_neg (by simp), ← hg3, e1]
    rw [chapterendLoop, if_pos hne23]
    rw [e2]
    dsimp only
    rw [if_pos hne23, ← hg2, e3]
    rw [chapterendLoop, if_neg (by rw [h1, h2]; simp)]
    dsimp only
    rw [if_neg (by rw [h1, h2]; simp), ← hg1, e4]
    rw [chapterendLoop]
  rw [generatePpgenFootnoteMarkup]
  dsimp only
  rw [if_neg (by decide), if_pos rfl]
  rw [show ([r1, r2, r3] : List FNRec).getLast? = some r3 by simp]
  dsimp only
  rw [show ([r1, r2, r3] : List FNRec).enum.reverse = [(2, r3), (1, r2), (0, r1)] from rfl]
  rw [show (if ("" : String) ≠ "" ∧ ("" : String) ≠ "" then strL ".fm rend=no"
      else if ("" : String) ≠ "" then strL ".fm rend=h"
      else if ("" : String) ≠ "" then strL ".fm rend=t"
      else strL ".fm") = strL ".fm" by simp]
  rw [hloop]
  dsimp only
  rw [e5]

/-- Witness for C9 amended: the two chapter groups land before lines 2 and 4,
each opened by `.fm`. -/
theorem c9_amended_fm_precedes_group_witness :
    generatePpgenFootnoteMarkup [strL "A1", strL "A2", strL "B1", strL "B2"]
      [{ fnBlock := [strL "x"]
         fnText := [strL "f1"]
         fnID := strL "A"
         startLine := 1
         endLine := 1
         paragraphEnd := some (-1)
         chapterEnd := some 2
         joinToPrevious := false
         joinToNext := false
         scanPageNum := some (strL "001.png") },
       { fnBlock := [strL "x"]
         fnText := [strL "f2"]
         fnID := strL "B"
         startLine := 1
         endLine := 1
         paragraphEnd := some (-1)
         chapterEnd := some 2
         joinToPrevious := false
         joinToNext := false
         scanPageNum := some (strL "001.png") },
       { fnBlock := [strL "x"]
         fnText := [strL "f3"]
         fnID := strL "C"
         startLine := 1
         endLine := 1
         paragraphEnd := some (-1)
         chapterEnd := some 4
         joinToPrevious := false
         joinToNext := false
         scanPageNum := some (strL "001.png") }] "chapterend" "" "" false =
      .ok ([strL "A1", strL "A2", strL ".fm",
            strL ".fn 1  // 001.png", strL "f1", strL ".fn-",
            strL ".fn 2  // 001.png", strL "f2", strL ".fn-",
            strL "B1", strL "B2", strL ".fm",
            strL ".fn 3  // 001.png", strL "f3", strL ".fn-"], []) :=
  c9_amended_fm_precedes_group [strL "A1", strL "A2", strL "B1", strL "B2"]
    _ _ _ false
    [strL ".fn 1  // 001.png", strL "f1", strL ".fn-"]
    [strL ".fn 2  // 001.png", strL "f2", strL ".fn-"]
    [strL ".fn 3  // 001.png", strL "f3", strL ".fn-"] 2 4
    (by decide) (by decide) (by decide) (by decide) (by decide)
    (by decide) (by decide) (by decide)

/-- C7: when anchor resolution succeeds but the resolved-anchor count differs
from the post-join record count, processFootnotes reports the mismatch as a
logged error and still completes: the bookend markup is generated and the
output buffer is produced. -/
theorem c7_count_mismatch_nonfatal (inBuf buf1 buf2 buf3 : List Line)
    (fns fns2 : List FNRec) (count : Nat) (errs1 errs2 : List LogErr)
    (keepOriginal auto : Bool)
    (hstrip : stripBlanksLoop inBuf [] = .ok buf1)
    (hparse : parseFootnotes buf1 = .ok (fns, errs1))
    (hmk : stripFootnoteMarkup buf1 = .ok buf2)
    (hanch : processFootnoteAnchors buf2 fns auto = .ok ((buf3, fns2, count), errs2))
    (hne : fns2.length ≠ count) (hpos : fns2.length > 0) :
    processFootnotes inBuf "bookend" keepOriginal "" "" auto =
      .ok (buf3 ++ bookendMarkup fns2, errs1 ++ errs2 ++ [.anchorCountMismatch]) := by
  have hgen : generatePpgenFootnoteMarkup buf3 fns2 "bookend" "" "" auto =
      .ok (buf3 ++ bookendMarkup fns2, []) := by
    rw [generatePpgenFootnoteMarkup]
    dsimp only
    rw [if_pos rfl]
  rw [processFootnotes, hstrip]
  dsimp only
  rw [hparse]
  dsimp only
  rw [show (if ("bookend" : String) ≠ "inplace" then stripFootnoteMarkup buf1
      else .ok buf1) = stripFootnoteMarkup buf1 from if_pos (by decide)]
  rw [hmk]
  dsimp only
  rw [hanch]
  dsimp only
  rw [if_pos hne, if_pos hpos, hgen]
  dsimp only
  rw [if_neg (by decide)]
  simp

/-- Witness for C7: one footnote record and no anchors at all is a count
mismatch; the pass still emits the bookend markup, with the mismatch
logged. -/
theorem c7_count_mismatch_nonfatal_witness :
    processFootnotes [strL "// 001.png", strL "[Footnote A: x]", strL "tail"]
      "bookend" false "" "" false =
      .ok ([strL "// 001.png", strL "tail"] ++
        bookendMarkup [{ fnBlock := [strL "[Footnote A: x]"]
                         fnText := [strL "x"]
                         fnID := strL "A"
                         startLine := 1
                         endLine := 1
                         paragraphEnd := some (-1)
                         chapterEnd := some (-1)
                         joinToPrevious := false
                         joinToNext := false
                         scanPageNum := some (strL "001.png") }],
        [.anchorCountMismatch]) :=
  c7_count_mismatch_nonfatal
    [strL "// 001.png", strL "[Footnote A: x]", strL "tail"]
    [strL "// 001.png", strL "[Footnote A: x]", strL "tail"]
    [strL "// 001.png", strL "tail"]
    [strL "// 001.png", strL "tail"]
    [{ fnBlock := [strL "[Footnote A: x]"]
       fnText := [strL "x"]
       fnID := strL "A"
       startLine := 1
       endLine := 1
       paragraphEnd := some (-1)
       chapterEnd := some (-1)
       joinToPrevious := false
       joinToNext := false
       scanPageNum := some (strL "001.png") }]
    [{ fnBlock := [strL "[Footnote A: x]"]
       fnText := [strL "x"]
       fnID := strL "A"
       startLine := 1
       endLine := 1
       paragraphEnd := some (-1)
       chapterEnd := some (-1)
       joinToPrevious := false
       joinToNext := false
       scanPageNum := some (strL "001.png") }]
    0 [] [] false false (by decide) (by decide) (by decide) (by decide)
    (by decide) (by decide)

/-! ### C1: the end-to-end pipeline on the well-formed page family -/

theorem isLineBlank_anchor (pre t : Line) : isLineBlank (pre ++ '[' :: t) = false := by
  rw [isLineBlank]
  exact List.all_eq_false.mpr ⟨'[', by simp, by decide⟩

theorem footnoteOpen_pb (pg : Line) : footnoteOpen (pbL pg) = false := by
  rw [show pbL pg = '/' :: ('/' :: (' ' :: pg)) from rfl]
  exact footnoteOpen_other _ _ (by decide) (by decide)

theorem fnLineL_canon (p : PageSpec) :
    fnLineL p = strL "[Footnote " ++ (p.id ++ ':' :: ' ' :: (p.body ++ [']'])) := by
  simp [fnLineL, mkOpen, List.append_assoc]

theorem footnoteOpen_fnLineL (p : PageSpec) : footnoteOpen (fnLineL p) = true := by
  rw [fnLineL_canon]
  exact footnoteOpen_prefix _

theorem stripBlanksLoop_c1 (specs : List PageSpec) :
    ∀ (acc : List Line), (∀ p ∈ specs, WFPage p) →
    stripBlanksLoop ((specs.map mkPage).join ++ [[]]) acc =
      .ok (acc ++ ((specs.map mkPage).join ++ [[]])) := by
  induction specs with
  | nil =>
    intro acc _
    simp only [List.map_nil, List.join_nil, List.nil_append]
    rw [stripBlanksLoop, if_neg (by decide)]
    rfl
  | cons p rest ih =>
    intro acc hwf
    have hw := hwf p (by simp)
    rw [show (((p :: rest).map mkPage).join ++ [[]] : List Line) =
      pbL p.pg :: (anchorTextL p :: (fnLineL p :: ((rest.map mkPage).join ++ [[]])))
      from by simp [mkPage]]
    rw [stripBlanksLoop, if_neg (by simp [footnoteOpen_pb])]
    rw [stripBlanksLoop, if_neg (by simp [hw.2.2.2.2.2.2.1])]
    rw [stripBlanksLoop, if_pos (by simp [footnoteOpen_fnLineL])]
    rw [delTrailingBlanksF, List.getLast?_concat]
    dsimp only
    rw [show isLineBlank (anchorTextL p) = false from isLineBlank_anchor p.pre _]
    simp only [Bool.false_eq_true, if_false]
    rw [ih _ (fun q hq => hwf q (by simp [hq]))]
    simp

theorem isLinePageBreak_fnLineL (p : PageSpec) : isLinePageBreak (fnLineL p) = false := by
  rw [show fnLineL p =
    '[' :: ((strL "Footnote " ++ (p.id ++ ':' :: ' ' :: p.body)) ++ [']']) from rfl]
  rw [isLinePageBreak, parseScanPage_other _ _ (by decide) (by decide) (by decide)]
  rfl

theorem fnLineL_jP (p : PageSpec) :
    startsWithL (strL "*[Footnote") (fnLineL p) = false := by
  rw [show fnLineL p =
    '[' :: ((strL "Footnote " ++ (p.id ++ ':' :: ' ' :: p.body)) ++ [']']) from rfl]
  rw [show strL "*[Footnote" = '*' :: strL "[Footnote" from rfl]
  exact startsWithL_cons_ne _ _ _ _ (by decide)

theorem fnLineL_jN (p : PageSpec) : endsWithL (strL "]*") (fnLineL p) = false := by
  rw [fnLineL]
  exact endsWithL_bracket_false _

theorem c1Recs_length (specs : List PageSpec) :
    ∀ n, (c1Recs n specs).length = specs.length := by
  induction specs with
  | nil => intro n; rfl
  | cons p rest ih => intro n; simp [c1Recs, ih]

theorem c1Recs_flags (specs : List PageSpec) :
    ∀ n, ∀ r ∈ c1Recs n specs, r.joinToNext = false ∧ r.joinToPrevious = false := by
  induction specs with
  | nil => intro n r hr; simp [c1Recs] at hr
  | cons p rest ih =>
    intro n r hr
    rw [c1Recs] at hr
    rcases List.mem_cons.mp hr with h | h
    · subst h; exact ⟨rfl, rfl⟩
    · exact ih (n + 3) r h

theorem parseLoopF_c1 (specs : List PageSpec) :
    ∀ (f n : Nat) (csp fnID : Option Line) (acc : List FNRec),
    (∀ p ∈ specs, WFPage p) → 3 * specs.length + 2 ≤ f →
    parseLoopF f ((specs.map mkPage).join ++ [[]]) n csp fnID acc =
      .ok (acc ++ c1Recs n specs) := by
  induction specs with
  | nil =>
    intro f n csp fnID acc _ hf
    match f, hf with
    | f + 2, _ =>
      simp only [List.map_nil, List.join_nil, List.nil_append]
      rw [show f + 2 = (f + 1) + 1 from rfl]
      rw [parseLoopF_plain _ _ _ _ _ _ _ (by decide) (by decide)]
      rw [parseLoopF_nil]
      simp [c1Recs]
  | cons p rest ih =>
    intro f n csp fnID acc hwf hf
    match f, hf with
    | f + 3, hf =>
      obtain ⟨hpg, hid, hpre, hpost, hbody, hatpb, hatopen, hpreh2, hpgbrk⟩ :=
        hwf p (by simp)
      have hnb : '[' ∉ p.body ++ [']'] := by
        intro hm
        rcases List.mem_append.mp hm with hm | hm
        · exact hbody.1 hm
        · simp at hm
      have hclose : ((fnLineL p).count '[' : Int) - (fnLineL p).count ']' = 0 := by
        rw [fnLineL, List.count_append, List.count_append,
          count_open_left _ _ hid hbody, count_open_right _ _ hid hbody]
        decide
      have hends : endsRBracketStars (fnLineL p) = true := by
        rw [fnLineL]; exact endsRBracketStars_bracket _
      have hID : (match matchFnID (fnLineL p) with
          | some i => some i | none => fnID) = some p.id := by
        rw [fnLineL_canon, matchFnID_open _ _ hid]
      have htext : stripCloseSuffix (stripFnPrefix (fnLineL p)) = p.body := by
        rw [fnLineL_canon, stripFnPrefix_open _ _ hid hnb]
        exact stripCloseSuffix_bracket p.body
      rw [show (((p :: rest).map mkPage).join ++ [[]] : List Line) =
        pbL p.pg :: (anchorTextL p :: (fnLineL p :: ((rest.map mkPage).join ++ [[]])))
        from by simp [mkPage]]
      rw [show f + 3 = (f + 2) + 1 from rfl]
      rw [parseLoopF_pb _ _ _ _ _ _ _ hpg]
      rw [show f + 2 = (f + 1) + 1 from rfl]
      rw [parseLoopF_plain _ _ _ _ _ _ _ hatpb hatopen]
      rw [parseLoopF_fnSingle (fnLineL p) p.id _ f (n + 1 + 1) _ _ _
        (isLinePageBreak_fnLineL p) (footnoteOpen_fnLineL p) hclose hends hID]
      rw [ih f _ _ _ _ (fun q hq => hwf q (by simp [hq]))
        (by simp only [List.length_cons] at hf; omega)]
      rw [fnLineL_jP, fnLineL_jN, htext]
      rw [show n + 1 + 1 + 1 = n + 3 from rfl, show n + 1 + 1 = n + 2 from rfl]
      simp [c1Recs, c1Rec]

theorem joinLoopF_noflags (fns : List FNRec)
    (h : ∀ r ∈ fns, r.joinToNext = false ∧ r.joinToPrevious = false) :
    ∀ (i : Nat), (i < fns.length ∨ i = 0) → ∀ (fuel : Nat) (errs : List LogErr),
      i + 1 ≤ fuel → joinLoopF fuel fns i errs = .ok (fns, errs) := by
  intro i
  induction i with
  | zero =>
    intro _ fuel errs hf
    match fuel, hf with
    | f + 1, _ => exact joinLoopF_none f fns errs
  | succ i ihi =>
    intro hlt fuel errs hf
    have hlt2 : i + 1 < fns.length := by omega
    match fuel, hf with
    | f + 1, hf =>
      rw [joinLoopF]
      have hget : fns.get? (i + 1) = some (fns.get ⟨i + 1, hlt2⟩) :=
        List.get?_eq_get hlt2
      rw [hget]
      dsimp only
      have hmem : fns.get ⟨i + 1, hlt2⟩ ∈ fns := List.get_mem fns _ hlt2
      rw [(h _ hmem).1]
      simp only [Bool.false_eq_true, if_false]
      rw [(h _ hmem).2]
      simp only [Bool.false_eq_true, if_false]
      exact ihi (by omega) f errs (by omega)

theorem mkDoc_length (specs : List PageSpec) :
    ((specs.map mkPage).join ++ [[]]).length = 3 * specs.length + 1 := by
  induction specs with
  | nil => rfl
  | cons p rest ih => simp_all [mkPage]; omega

theorem parseFootnotes_c1 (specs : List PageSpec) (h : ∀ p ∈ specs, WFPage p) :
    parseFootnotes ((specs.map mkPage).join ++ [[]]) = .ok (c1Recs 0 specs, []) := by
  rw [parseFootnotes]
  rw [parseLoopF_c1 specs _ 0 none none [] h (by rw [mkDoc_length])]
  dsimp only
  simp only [List.nil_append]
  exact joinLoopF_noflags _ (c1Recs_flags specs 0) _
    (by rw [c1Recs_length]; omega) _ [] (by rw [c1Recs_length]; omega)

theorem skipBlockS_c1 (l : Line) (ls : List Line) (hne : ls ≠ [])
    (hcnt : ((l.count '[' : Int) - l.count ']') = 0)
    (hends : endsRBracketStars l = true) :
    skipBlockS (l :: ls) 0 = (true, ls) := by
  match ls, hne with
  | l2 :: rest, _ =>
    rw [skipBlockS]
    rw [if_pos ⟨by omega, hends⟩]

theorem stripFnMarkup_c1 (specs : List PageSpec) :
    ∀ (f : Nat) (acc : List Line), (∀ p ∈ specs, WFPage p) →
    3 * specs.length + 2 ≤ f →
    stripFnMarkupLoopF f ((specs.map mkPage).join ++ [[]]) acc =
      .ok (acc ++ ((specs.map (fun p => [pbL p.pg, anchorTextL p])).join ++ [[]])) := by
  induction specs with
  | nil =>
    intro f acc _ hf
    match f, hf with
    | f + 2, _ =>
      simp only [List.map_nil, List.join_nil, List.nil_append]
      rw [show f + 2 = (f + 1) + 1 from rfl]
      rw [stripFnMarkupLoopF, if_neg (by decide)]
      rfl
  | cons p rest ih =>
    intro f acc hwf hf
    match f, hf with
    | f + 3, hf =>
      obtain ⟨hpg, hid, hpre, hpost, hbody, hatpb, hatopen, hpreh2, hpgbrk⟩ :=
        hwf p (by simp)
      have hclose : ((fnLineL p).count '[' : Int) - (fnLineL p).count ']' = 0 := by
        rw [fnLineL, List.count_append, List.count_append,
          count_open_left _ _ hid hbody, count_open_right _ _ hid hbody]
        decide
      rw [show (((p :: rest).map mkPage).join ++ [[]] : List Line) =
        pbL p.pg :: (anchorTextL p :: (fnLineL p :: ((rest.map mkPage).join ++ [[]])))
        from by simp [mkPage]]
      rw [show f + 3 = (f + 2) + 1 from rfl]
      rw [stripFnMarkupLoopF, if_neg (by simp [footnoteOpen_pb])]
      rw [show f + 2 = (f + 1) + 1 from rfl]
      rw [stripFnMarkupLoopF, if_neg (by simp [hatopen])]
      rw [stripFnMarkupLoopF, if_pos (by simp [footnoteOpen_fnLineL])]
      rw [skipBlockS_c1 _ _ (by simp) hclose
        (by rw [fnLineL]; exact endsRBracketStars_bracket _)]
      dsimp only
      rw [ih f _ (fun q hq => hwf q (by simp [hq]))
        (by simp only [List.length_cons] at hf; omega)]
      simp

theorem stripFootnoteMarkup_c1 (specs : List PageSpec)
    (h : ∀ p ∈ specs, WFPage p) :
    stripFootnoteMarkup ((specs.map mkPage).join ++ [[]]) =
      .ok (c1Stripped specs) := by
  rw [stripFootnoteMarkup]
  rw [stripFnMarkup_c1 specs _ [] h (by rw [mkDoc_length])]
  rw [c1Stripped]
  simp

theorem pyReSubAllF_cons (f : Nat) (pat repl : Line) (c : Char) (rest : Line) :
    pyReSubAllF (f + 1) pat repl (c :: rest) =
      if pat ≠ [] ∧ pat.isPrefixOf (c :: rest) then
        repl ++ pyReSubAllF f pat repl ((c :: rest).drop pat.length)
      else c :: pyReSubAllF f pat repl rest := rfl

theorem findAnchorsF_cons (f : Nat) (c : Char) (rest : Line) :
    findAnchorsF (f + 1) (c :: rest) =
      if c = '[' then
        match rest with
        | a :: b :: rest2 =>
          if (a.isAlpha || a.isDigit) ∧ b = ']' then [a] :: findAnchorsF f rest2
          else
            match rest2 with
            | d :: rest3 =>
              if a.isDigit ∧ b.isDigit ∧ d = ']' then [a, b] :: findAnchorsF f rest3
              else findAnchorsF f rest
            | [] => findAnchorsF f rest
        | _ => findAnchorsF f rest
      else findAnchorsF f rest := rfl

theorem pyReSubAllF_nomatch (t repl : Line) :
    ∀ (s : Line) (fuel : Nat), '[' ∉ s →
    pyReSubAllF fuel ('[' :: t) repl s = s := by
  intro s
  induction s with
  | nil => intro fuel _; cases fuel <;> rfl
  | cons c rest ih =>
    intro fuel hm
    cases fuel with
    | zero => rfl
    | succ f =>
      rw [pyReSubAllF_cons]
      rw [if_neg (by
        intro hcon
        have hpre := hcon.2
        simp only [List.isPrefixOf, Bool.and_eq_true, beq_iff_eq] at hpre
        exact hm (by simp [← hpre.1]))]
      rw [ih f (fun hm2 => hm (List.mem_cons_of_mem c hm2))]

theorem pyReSubAllF_hit (a repl post : Line) (hpost : '[' ∉ post) :
    ∀ (pre : Line) (fuel : Nat), '[' ∉ pre →
    pre.length + (a.length + (post.length + 2)) + 1 ≤ fuel →
    pyReSubAllF fuel ('[' :: (a ++ [']'])) repl (pre ++ '[' :: (a ++ ']' :: post)) =
      pre ++ (repl ++ post) := by
  intro pre
  induction pre with
  | nil =>
    intro fuel _ hf
    match fuel, hf with
    | f + 1, _ =>
      simp only [List.nil_append]
      rw [show ('[' :: (a ++ ']' :: post) : Line) = ('[' :: (a ++ [']'])) ++ post
        from by simp]
      rw [show (('[' :: (a ++ [']'])) ++ post : Line) =
        '[' :: ((a ++ [']']) ++ post) from rfl]
      rw [pyReSubAllF_cons]
      rw [if_pos ⟨by simp, by
        rw [show ('[' :: ((a ++ [']']) ++ post) : Line) =
          ('[' :: (a ++ [']'])) ++ post from rfl]
        exact List.isPrefixOf_iff_prefix.mpr (List.prefix_append _ _)⟩]
      rw [show ('[' :: ((a ++ [']']) ++ post) : Line) =
        ('[' :: (a ++ [']'])) ++ post from rfl]
      rw [List.drop_left]
      rw [pyReSubAllF_nomatch _ _ post f hpost]
  | cons c pre ih =>
    intro fuel hpre hf
    match fuel, hf with
    | f + 1, hf =>
      rw [List.cons_append, pyReSubAllF_cons]
      rw [if_neg (by
        intro hcon
        have hp := hcon.2
        simp only [List.isPrefixOf, Bool.and_eq_true, beq_iff_eq] at hp
        exact hpre (by simp [← hp.1]))]
      rw [ih f (fun hm2 => hpre (List.mem_cons_of_mem c hm2))
        (by simp only [List.length_cons] at hf; omega)]
      rfl

theorem pyReSubAll_anchor (a repl pre post : Line) (hpre : '[' ∉ pre)
    (hpost : '[' ∉ post) :
    pyReSubAll ('[' :: (a ++ [']'])) repl (pre ++ '[' :: (a ++ ']' :: post)) =
      pre ++ (repl ++ post) := by
  rw [pyReSubAll]
  exact pyReSubAllF_hit a repl post hpost pre _ hpre (by simp; omega)

theorem findAnchorsF_nomatch : ∀ (s : Line) (fuel : Nat), '[' ∉ s →
    findAnchorsF fuel s = [] := by
  intro s
  induction s with
  | nil => intro fuel _; cases fuel <;> rfl
  | cons c rest ih =>
    intro fuel hm
    cases fuel with
    | zero => rfl
    | succ f =>
      rw [findAnchorsF_cons]
      rw [if_neg (by intro h; exact hm (by simp [h]))]
      exact ih f (fun hm2 => hm (List.mem_cons_of_mem c hm2))

theorem findAnchorsF_hit (a post : Line) (hida : idOk1 a = true) (hpost : '[' ∉ post) :
    ∀ (pre : Line) (fuel : Nat), '[' ∉ pre →
    pre.length + (a.length + (post.length + 2)) + 1 ≤ fuel →
    findAnchorsF fuel (pre ++ '[' :: (a ++ ']' :: post)) = [a] := by
  intro pre
  induction pre with
  | nil =>
    intro fuel _ hf
    match fuel, hf with
    | f + 1, hf =>
      simp only [List.nil_append]
      match a, hida with
      | [c], hida =>
        have hc : (c.isAlpha || c.isDigit) = true := by
          simp only [idOk1] at hida
          exact hida
        simp only [List.cons_append, List.nil_append]
        rw [findAnchorsF_cons, if_pos rfl]
        dsimp only
        rw [if_pos ⟨hc, rfl⟩]
        rw [findAnchorsF_nomatch post f hpost]
      | [c, d], hida =>
        simp only [idOk1, Bool.and_eq_true] at hida
        have hd : d ≠ ']' := by
          intro h
          rw [h] at hida
          simp at hida
        simp only [List.cons_append, List.nil_append]
        rw [findAnchorsF_cons, if_pos rfl]
        dsimp only
        rw [if_neg (by intro h; exact hd h.2)]
        rw [if_pos ⟨hida.1, hida.2, rfl⟩]
        rw [findAnchorsF_nomatch post f hpost]
  | cons c pre ih =>
    intro fuel hpre hf
    match fuel, hf with
    | f + 1, hf =>
      rw [List.cons_append, findAnchorsF_cons]
      rw [if_neg (fun h => hpre (by simp [h]))]
      exact ih f (fun hm2 => hpre (List.mem_cons_of_mem c hm2))
        (by simp only [List.length_cons] at hf; omega)

theorem findAnchors_anchor (a pre post : Line) (hida : idOk1 a = true)
    (hpre : '[' ∉ pre) (hpost : '[' ∉ post) :
    findAnchors (pre ++ '[' :: (a ++ ']' :: post)) = [a] := by
  rw [findAnchors]
  exact findAnchorsF_hit a post hida hpost pre _ hpre (by simp; omega)

theorem findAnchors_nomatch (s : Line) (h : '[' ∉ s) : findAnchors s = [] :=
  findAnchorsF_nomatch s _ h

theorem getD_of_drop (buf : List Line) (j : Nat) (l : Line) (t : List Line)
    (h : buf.drop j = l :: t) : buf.getD j [] = l := by
  have h0 : (buf.drop j)[0]? = some l := by rw [h]; simp
  rw [List.getElem?_drop] at h0
  have h1 : buf[j]? = some l := by simpa using h0
  simp [List.getD_eq_getElem?_getD, h1]

theorem drop_succ_of_drop (buf : List Line) (j : Nat) (l : Line) (t : List Line)
    (h : buf.drop j = l :: t) : buf.drop (j + 1) = t := by
  rw [← List.drop_drop, h, List.drop_one]
  rfl

theorem findNextEmptyLineF_c1 :
    ∀ (nb : List Line) (buf : List Line) (j fuel : Nat),
    buf.drop j = nb ++ [[]] → (∀ l ∈ nb, isLineBlank l = false) → 0 < j →
    nb.length + 2 ≤ fuel →
    findNextEmptyLineF fuel buf j none = some (j + nb.length) := by
  intro nb
  induction nb with
  | nil =>
    intro buf j fuel hdrop _ hj hf
    match fuel, hf with
    | f + 2, _ =>
      have hlt : j < buf.length := by
        have := congrArg List.length hdrop
        simp at this
        omega
      rw [findNextEmptyLineF, if_pos ⟨hlt, Or.inl rfl⟩]
      rw [getD_of_drop buf j [] [] (by simpa using hdrop)]
      rw [show isLineBlank [] = true from rfl]
      simp only [eq_self_iff_true, if_true]
      rw [findNextEmptyLineF, if_neg (by
        intro hcon
        rcases hcon.2 with h | h
        · exact Option.noConfusion h
        · exact hj.ne (Option.some.inj h).symm)]
      simp
  | cons l nb ih =>
    intro buf j fuel hdrop hnb hj hf
    match fuel, hf with
    | f + 1, hf =>
      have hlt : j < buf.length := by
        have := congrArg List.length hdrop
        simp at this
        omega
      rw [findNextEmptyLineF, if_pos ⟨hlt, Or.inl rfl⟩]
      rw [getD_of_drop buf j l _ (by simpa using hdrop)]
      rw [hnb l (by simp)]
      simp only [Bool.false_eq_true, if_false]
      rw [ih buf (j + 1) f (drop_succ_of_drop _ _ _ _ (by simpa using hdrop))
        (fun x hx => hnb x (by simp [hx])) (by omega)
        (by
          have hlen : (l :: nb).length = nb.length + 1 := List.length_cons _ _
          omega)]
      congr 1
      simp only [List.length_cons]
      omega

theorem findNextEmptyLine_c1 (nb : List Line) (buf : List Line) (j : Nat)
    (hdrop : buf.drop j = nb ++ [[]]) (hnb : ∀ l ∈ nb, isLineBlank l = false)
    (hj : 0 < j) : findNextEmptyLine buf j = some (j + nb.length) := by
  rw [findNextEmptyLine]
  refine findNextEmptyLineF_c1 nb buf j _ hdrop hnb hj ?_
  have := congrArg List.length hdrop
  simp at this
  omega

theorem findNextChapterF_c1 :
    ∀ (nb : List Line) (buf : List Line) (j fuel : Nat),
    buf.drop j = nb ++ [[]] →
    (∀ l ∈ nb, startsWithL (strL ".h2") l = false) →
    nb.length + 1 ≤ fuel →
    findNextChapterF fuel buf j none = none := by
  intro nb
  induction nb with
  | nil =>
    intro buf j fuel hdrop _ hf
    match fuel, hf with
    | f + 1, _ =>
      have hlen : buf.length = j + 1 := by
        have h2 := congrArg List.length hdrop
        simp at h2
        have h3 : j ≤ buf.length := by
          by_contra hc
          rw [List.drop_eq_nil_of_le (by omega)] at hdrop
          simp at hdrop
        omega
      rw [findNextChapterF, if_neg (by intro hcon; omega)]
  | cons l nb ih =>
    intro buf j fuel hdrop hnb hf
    match fuel, hf with
    | f + 1, hf =>
      have hlen : buf.length = j + nb.length + 2 := by
        have h2 := congrArg List.length hdrop
        simp at h2
        have h3 : j ≤ buf.length := by
          by_contra hc
          rw [List.drop_eq_nil_of_le (by omega)] at hdrop
          simp at hdrop
        omega
      rw [findNextChapterF, if_pos ⟨by omega, Or.inl rfl⟩]
      rw [getD_of_drop buf j l _ (by simpa using hdrop)]
      rw [hnb l (by simp)]
      simp only [Bool.false_eq_true, if_false]
      exact ih buf (j + 1) f (drop_succ_of_drop _ _ _ _ (by simpa using hdrop))
        (fun x hx => hnb x (by simp [hx]))
        (by simp only [List.length_cons] at hf; omega)

theorem pageIDs_single (A B : List FNRec) (r : FNRec) (pg : Option Line)
    (hr : r.scanPageNum = pg) (hA : ∀ f ∈ A, f.scanPageNum ≠ pg)
    (hB : ∀ f ∈ B, f.scanPageNum ≠ pg) :
    pageIDs (A ++ r :: B) pg = [r.fnID] := by
  rw [pageIDs, List.filter_append]
  rw [List.filter_eq_nil_iff.mpr (fun f hf => by simp [hA f hf])]
  rw [List.filter_cons_of_pos (by simp [hr])]
  rw [List.filter_eq_nil_iff.mpr (fun f hf => by simp [hB f hf])]
  simp

theorem set_append_mid {m : Type} (A : List m) :
    ∀ (r x : m) (B : List m), (A ++ r :: B).set A.length x = A ++ x :: B := by
  induction A with
  | nil => intro r x B; rfl
  | cons a A ih => intro r x B; simp [List.set, ih]

theorem get?_append_mid {m : Type} (A : List m) (r : m) (B : List m) :
    (A ++ r :: B).get? A.length = some r := by
  rw [List.get?_eq_getElem?]
  rw [List.getElem?_append_right (Nat.le_refl _)]
  simp

theorem pyIdx_c1 (len n : Nat) (h : n < len) :
    pyIdx len (((n + 1 : Nat) : Int) - 1) = some n := by
  rw [pyIdx, if_pos (by omega), if_pos (by push_cast; omega)]
  congr 1
  omega

theorem anchorStep_c1 (lineNum : Nat) (st : AnchSt) (a : Line) (fcur : FNRec)
    (buf1 : List Line) (pe : Option Nat)
    (hmem : a ∈ st.fnIDs) (hatp : st.atp = some [])
    (hcount : st.count < st.fns.length)
    (hget : st.fns.get? st.count = some fcur)
    (hpage : st.csp = fcur.scanPageNum)
    (hline : st.buf.set lineNum
        (pyReSubAll ('[' :: (a ++ [']'])) ('[' :: (natL (st.count + 1) ++ [']']))
          (st.buf.getD lineNum [])) = buf1)
    (hpe : findNextEmptyLine buf1 lineNum = pe)
    (hch : findNextChapter buf1 lineNum = none) :
    anchorStep lineNum false st a =
      .ok { buf := buf1
            fns := st.fns.set st.count
              { fcur with paragraphEnd := pe.map (fun n => (n : Int)) }
            csp := st.csp
            fnIDs := st.fnIDs
            atp := some [mkPat a]
            count := st.count + 1
            errs := st.errs } := by
  rw [anchorStep, if_pos hmem, hatp]
  dsimp only
  rw [if_pos (by simp)]
  rw [pyIdx_c1 st.fns.length st.count hcount]
  dsimp only
  rw [hget]
  dsimp only
  rw [if_neg (by rw [hpage]; simp)]
  simp only [Bool.false_eq_true, if_false]
  rw [hline, hpe, hch]
  simp

theorem findNextChapter_c1 (nb : List Line) (buf : List Line) (j : Nat)
    (hdrop : buf.drop j = nb ++ [[]])
    (hnb : ∀ l ∈ nb, startsWithL (strL ".h2") l = false) :
    findNextChapter buf j = none := by
  rw [findNextChapter]
  refine findNextChapterF_c1 nb buf j _ hdrop hnb ?_
  have := congrArg List.length hdrop
  simp at this
  omega

theorem isLineBlank_pb (pg : Line) : isLineBlank (pbL pg) = false := by
  rw [show pbL pg = '/' :: ('/' :: (' ' :: pg)) from rfl, isLineBlank]
  simp [show isPySpace '/' = false from by decide]

theorem noH2_pb (pg : Line) : startsWithL (strL ".h2") (pbL pg) = false := by
  rw [show pbL pg = '/' :: ('/' :: (' ' :: pg)) from rfl,
    show strL ".h2" = '.' :: strL "h2" from rfl]
  exact startsWithL_cons_ne _ _ _ _ (by decide)

theorem noH2_of_pre (pre t : Line) (h : startsWithL (strL ".h2") pre = false) :
    startsWithL (strL ".h2") (pre ++ '[' :: t) = false := by
  match pre with
  | [] =>
    rw [List.nil_append, show strL ".h2" = '.' :: strL "h2" from rfl]
    exact startsWithL_cons_ne _ _ _ _ (by decide)
  | [c1] =>
    simp [startsWithL, List.isPrefixOf, strL]
  | [c1, c2] =>
    simp [startsWithL, List.isPrefixOf, strL]
  | c1 :: c2 :: c3 :: r =>
    simp only [startsWithL, strL, List.isPrefixOf, List.cons_append,
      Bool.and_eq_true] at h ⊢
    exact h

theorem lb_pbL (pg : Line) (h : noBrk pg) : '[' ∉ pbL pg := by
  intro hm
  rw [pbL] at hm
  rcases List.mem_append.mp hm with hm | hm
  · simp [strL] at hm
  · exact h.1 hm

theorem c1Recs_pages (specs : List PageSpec) :
    ∀ n, ∀ r ∈ c1Recs n specs, ∃ q ∈ specs, r.scanPageNum = some q.pg := by
  induction specs with
  | nil => intro n r hr; simp [c1Recs] at hr
  | cons p rest ih =>
    intro n r hr
    rw [c1Recs] at hr
    rcases List.mem_cons.mp hr with h | h
    · exact ⟨p, by simp, by rw [h]; rfl⟩
    · obtain ⟨q, hq, hp⟩ := ih (n + 3) r h
      exact ⟨q, by simp [hq], hp⟩

theorem mem_strippedJoin (specs : List PageSpec) (l : Line)
    (hl : l ∈ (specs.map (fun p => [pbL p.pg, anchorTextL p])).join) :
    ∃ q ∈ specs, l = pbL q.pg ∨ l = anchorTextL q := by
  rw [List.mem_join] at hl
  obtain ⟨ls, hls, hmem⟩ := hl
  rw [List.mem_map] at hls
  obtain ⟨q, hq, rfl⟩ := hls
  rcases List.mem_cons.mp hmem with h | h
  · exact ⟨q, hq, Or.inl h⟩
  · rcases List.mem_cons.mp h with h2 | h2
    · exact ⟨q, hq, Or.inr h2⟩
    · simp at h2

theorem strippedJoin_nonblank (specs : List PageSpec) (hwf : ∀ p ∈ specs, WFPage p)
    (l : Line) (hl : l ∈ (specs.map (fun p => [pbL p.pg, anchorTextL p])).join) :
    isLineBlank l = false := by
  obtain ⟨q, hq, hc⟩ := mem_strippedJoin specs l hl
  rcases hc with rfl | rfl
  · exact isLineBlank_pb q.pg
  · exact isLineBlank_anchor q.pre _

theorem strippedJoin_noH2 (specs : List PageSpec) (hwf : ∀ p ∈ specs, WFPage p)
    (l : Line) (hl : l ∈ (specs.map (fun p => [pbL p.pg, anchorTextL p])).join) :
    startsWithL (strL ".h2") l = false := by
  obtain ⟨q, hq, hc⟩ := mem_strippedJoin specs l hl
  rcases hc with rfl | rfl
  · exact noH2_pb q.pg
  · exact noH2_of_pre q.pre _ (hwf q hq).2.2.2.2.2.2.2.1

theorem strippedJoin_length (specs : List PageSpec) :
    ((specs.map (fun p => [pbL p.pg, anchorTextL p])).join).length =
      2 * specs.length := by
  induction specs with
  | nil => rfl
  | cons p rest ih => simp [ih]; omega

theorem pure_ok (x : AnchSt) : (pure x : Except PyErr AnchSt) = Except.ok x := rfl

theorem anchorLoopF_c1 :
    ∀ (restS : List PageSpec) (fuel k : Nat) (doneL : List Line) (fnsA : List FNRec)
      (st : AnchSt),
    (∀ p ∈ restS, WFPage p) →
    List.Pairwise (fun p q => p.pg ≠ q.pg) restS →
    (∀ g ∈ fnsA, ∀ q ∈ restS, g.scanPageNum ≠ some q.pg) →
    st.buf = doneL ++ ((restS.map (fun p => [pbL p.pg, anchorTextL p])).join ++ [[]]) →
    st.fns = fnsA ++ c1Recs (3 * k) restS →
    fnsA.length = k →
    st.count = k →
    st.errs = [] →
    doneL.length = 2 * k →
    2 * restS.length + 2 ≤ fuel →
    ∃ st2, anchorLoopF fuel false (2 * k) st = .ok st2 ∧
      st2.buf = doneL ++ (c1OutPages k restS ++ [[]]) ∧
      st2.fns = fnsA ++ c1RecsD (3 * k) (2 * k + 2 * restS.length) restS ∧
      st2.count = k + restS.length ∧
      st2.errs = [] := by
  intro restS
  induction restS with
  | nil =>
    intro fuel k doneL fnsA st _ _ _ hbuf hfns hlenA hcount herrs hdone hf
    match fuel, hf with
    | f + 2, _ =>
      have hlenbuf : st.buf.length = 2 * k + 1 := by
        rw [hbuf]
        simp [hdone]
      have hdrop : st.buf.drop (2 * k) = [] :: [] := by
        rw [hbuf, ← hdone]
        rw [List.drop_left]
        simp
      rw [show f + 2 = (f + 1) + 1 from rfl]
      rw [anchorLoopF, if_pos (by omega)]
      dsimp only
      rw [getD_of_drop st.buf (2 * k) [] [] hdrop]
      rw [show isLinePageBreak ([] : Line) = false from rfl]
      simp only [Bool.false_eq_true, if_false]
      rw [getD_of_drop st.buf (2 * k) [] [] hdrop]
      rw [findAnchors_nomatch [] (by simp)]
      rw [List.foldlM_nil]
      rw [show (pure st : Except PyErr AnchSt) = Except.ok st from rfl]
      dsimp only
      rw [anchorLoopF, if_neg (by omega)]
      refine ⟨st, rfl, ?_, ?_, ?_, herrs⟩
      · rw [hbuf]
        simp [c1OutPages]
      · rw [hfns]
        simp [c1Recs, c1RecsD]
      · rw [hcount]
        simp
  | cons p rest' ih =>
    intro fuel k doneL fnsA st hwf hdist hA hbuf hfns hlenA hcount herrs hdone hf
    match fuel, hf with
    | f + 2, hf =>
      obtain ⟨hpg, hid, hpre, hpost, hbody, hatpb, hatopen, hpreh2, hpgbrk⟩ :=
        hwf p (by simp)
      have hbuf2 : st.buf = doneL ++ (pbL p.pg :: (anchorTextL p ::
          ((rest'.map (fun q => [pbL q.pg, anchorTextL q])).join ++ [[]]))) := by
        rw [hbuf]
        simp
      have hjl := strippedJoin_length rest'
      have hlenbuf : st.buf.length = 2 * k + (2 * rest'.length + 3) := by
        rw [hbuf2]
        simp only [List.length_append, List.length_cons, List.length_nil, hjl, hdone]
      have hdrop0 : st.buf.drop (2 * k) = pbL p.pg :: (anchorTextL p ::
          ((rest'.map (fun q => [pbL q.pg, anchorTextL q])).join ++ [[]])) := by
        rw [hbuf2, ← hdone]
        exact List.drop_left _ _
      have hdrop1 : st.buf.drop (2 * k + 1) = anchorTextL p ::
          ((rest'.map (fun q => [pbL q.pg, anchorTextL q])).join ++ [[]]) :=
        drop_succ_of_drop _ _ _ _ hdrop0
      have hpid : pageIDs st.fns (some p.pg) = [p.id] := by
        rw [hfns, c1Recs]
        refine pageIDs_single fnsA _ (c1Rec (3 * k) p) (some p.pg) rfl
          (fun g hg => hA g hg p (by simp)) ?_
        intro g hg
        obtain ⟨q, hq, hsp⟩ := c1Recs_pages rest' (3 * k + 3) g hg
        rw [hsp]
        have hne := (List.pairwise_cons.mp hdist).1 q hq
        simp
        intro hcon
        exact hne hcon.symm
      have hbufA : ({ st with atp := some [], csp := some p.pg, fnIDs := [p.id] } : AnchSt).buf = st.buf := rfl
      have hcntA : ({ st with atp := some [], csp := some p.pg, fnIDs := [p.id] } : AnchSt).count = st.count := rfl
      have hstep := anchorStep_c1 (2 * k + 1)
        { st with atp := some [], csp := some p.pg, fnIDs := [p.id] }
        p.id (c1Rec (3 * k) p)
        (doneL ++ (pbL p.pg :: (rewrittenTextL p (k + 1) ::
          ((rest'.map (fun q => [pbL q.pg, anchorTextL q])).join ++ [[]]))))
        (some (2 * k + 2 * rest'.length + 2))
        (by simp) rfl
        (by
          show st.count < st.fns.length
          rw [hcount, hfns]
          simp [c1Recs_length, hlenA])
        (by
          show st.fns.get? st.count = some (c1Rec (3 * k) p)
          rw [hcount, hfns, c1Recs, ← hlenA]
          exact get?_append_mid fnsA _ _)
        rfl
        (by
          rw [hbufA, hcntA]
          rw [getD_of_drop st.buf (2 * k + 1) _ _ hdrop1]
          rw [hcount]
          rw [show anchorTextL p = p.pre ++ '[' :: (p.id ++ ']' :: p.post) from rfl]
          rw [pyReSubAll_anchor p.id _ p.pre p.post hpre.1 hpost.1]
          rw [show p.pre ++ ('[' :: (natL (k + 1) ++ [']']) ++ p.post) =
            rewrittenTextL p (k + 1) from by simp [rewrittenTextL]]
          rw [show st.buf.set (2 * k + 1) (rewrittenTextL p (k + 1)) =
            ((doneL ++ [pbL p.pg]) ++ (anchorTextL p ::
              ((rest'.map (fun q => [pbL q.pg, anchorTextL q])).join ++ [[]]))).set
              ((doneL ++ [pbL p.pg]) : List Line).length (rewrittenTextL p (k + 1))
            from by rw [hbuf2]; simp [hdone]]
          rw [set_append_mid]
          simp)
        (by
          rw [findNextEmptyLine_c1 (rewrittenTextL p (k + 1) ::
            (rest'.map (fun q => [pbL q.pg, anchorTextL q])).join) _ (2 * k + 1)
            (by
              rw [show (doneL ++ (pbL p.pg :: (rewrittenTextL p (k + 1) ::
                ((rest'.map (fun q => [pbL q.pg, anchorTextL q])).join ++ [[]])))) =
                ((doneL ++ [pbL p.pg]) ++ (rewrittenTextL p (k + 1) ::
                  ((rest'.map (fun q => [pbL q.pg, anchorTextL q])).join ++ [[]])))
                from by simp]
              rw [show (2 * k + 1) = ((doneL ++ [pbL p.pg]) : List Line).length
                from by simp [hdone]]
              rw [List.drop_left]
              simp)
            (by
              intro l hl
              rcases List.mem_cons.mp hl with h | h
              · rw [h, rewrittenTextL]; exact isLineBlank_anchor p.pre _
              · exact strippedJoin_nonblank rest'
                  (fun q hq => hwf q (by simp [hq])) l h)
            (by omega)]
          congr 1
          simp only [List.length_cons, hjl]
          omega)
        (by
          exact findNextChapter_c1 (rewrittenTextL p (k + 1) ::
            (rest'.map (fun q => [pbL q.pg, anchorTextL q])).join) _ (2 * k + 1)
            (by
              rw [show (doneL ++ (pbL p.pg :: (rewrittenTextL p (k + 1) ::
                ((rest'.map (fun q => [pbL q.pg, anchorTextL q])).join ++ [[]])))) =
                ((doneL ++ [pbL p.pg]) ++ (rewrittenTextL p (k + 1) ::
                  ((rest'.map (fun q => [pbL q.pg, anchorTextL q])).join ++ [[]])))
                from by simp]
              rw [show (2 * k + 1) = ((doneL ++ [pbL p.pg]) : List Line).length
                from by simp [hdone]]
              rw [List.drop_left]
              simp)
            (by
              intro l hl
              rcases List.mem_cons.mp hl with h | h
              · rw [h, rewrittenTextL]
                exact noH2_of_pre p.pre _ hpreh2
              · exact strippedJoin_noH2 rest'
                  (fun q hq => hwf q (by simp [hq])) l h))
      rw [show f + 2 = (f + 1) + 1 from rfl]
      rw [anchorLoopF, if_pos (by omega)]
      dsimp only
      rw [getD_of_drop st.buf (2 * k) _ _ hdrop0]
      rw [show isLinePageBreak (pbL p.pg) = true from by simp [isLinePageBreak, hpg]]
      rw [if_pos rfl]
      rw [hpg, hpid]
      dsimp only
      rw [getD_of_drop st.buf (2 * k) _ _ hdrop0]
      rw [findAnchors_nomatch (pbL p.pg) (lb_pbL p.pg hpgbrk)]
      rw [List.foldlM_nil, pure_ok]
      dsimp only
      rw [anchorLoopF, if_pos (by dsimp only; omega)]
      dsimp only
      rw [getD_of_drop st.buf (2 * k + 1) _ _ hdrop1]
      rw [hatpb]
      simp only [Bool.false_eq_true, if_false]
      rw [getD_of_drop st.buf (2 * k + 1) _ _ hdrop1]
      rw [show anchorTextL p = p.pre ++ '[' :: (p.id ++ ']' :: p.post) from rfl]
      rw [findAnchors_anchor p.id p.pre p.post hid hpre.1 hpost.1]
      rw [List.foldlM_cons]
      rw [hstep]
      dsimp only
      obtain ⟨st4, hrec, hbuf4, hfns4, hcount4, herrs4⟩ := ih f (k + 1)
        (doneL ++ [pbL p.pg, rewrittenTextL p (k + 1)])
        (fnsA ++ [c1RecD (3 * k) (2 * k + 2 * rest'.length + 2) p])
        { buf := doneL ++ (pbL p.pg :: (rewrittenTextL p (k + 1) ::
            ((rest'.map (fun q => [pbL q.pg, anchorTextL q])).join ++ [[]])))
          fns := st.fns.set st.count { c1Rec (3 * k) p with paragraphEnd :=
            (some (2 * k + 2 * rest'.length + 2) : Option Nat).map (fun n => (n : Int)) }
          csp := some p.pg
          fnIDs := [p.id]
          atp := some [mkPat p.id]
          count := st.count + 1
          errs := st.errs }
        (fun q hq => hwf q (by simp [hq]))
        (List.pairwise_cons.mp hdist).2
        (by
          intro g hg q hq
          rcases List.mem_append.mp hg with h | h
          · exact hA g h q (by simp [hq])
          · rcases List.mem_cons.mp h with h2 | h2
            · rw [h2]
              have hne := (List.pairwise_cons.mp hdist).1 q hq
              show some p.pg ≠ some q.pg
              simp
              exact hne
            · simp at h2)
        (by simp)
        (by
          show st.fns.set st.count _ = _
          rw [show st.count = fnsA.length from by rw [hcount, hlenA], hfns, c1Recs,
            set_append_mid]
          rw [show (3 * (k + 1)) = 3 * k + 3 from by omega]
          simp [c1RecD])
        (by simp [hlenA])
        (by
          show st.count + 1 = k + 1
          rw [hcount])
        herrs
        (by simp [hdone]; omega)
        (by
          have hl : (p :: rest').length = rest'.length + 1 := List.length_cons _ _
          omega)
      refine ⟨st4, ?_, ?_, ?_, ?_, herrs4⟩
      · exact hrec
      · rw [hbuf4]
        rw [c1OutPages]
        simp
      · rw [hfns4]
        rw [show (2 * (k + 1) + 2 * rest'.length) = 2 * k + 2 * rest'.length + 2
          from by omega]
        rw [show (3 * (k + 1)) = 3 * k + 3 from by omega]
        rw [show (2 * k + 2 * ((p :: rest').length)) = 2 * k + 2 * rest'.length + 2
          from by simp only [List.length_cons]; omega]
        rw [c1RecsD]
        simp
      · rw [hcount4]
        simp only [List.length_cons]
        omega

theorem c1RecsD_length (specs : List PageSpec) :
    ∀ n pe, (c1RecsD n pe specs).length = specs.length := by
  induction specs with
  | nil => intro n pe; rfl
  | cons p rest ih => intro n pe; simp [c1RecsD, ih]

theorem processFootnoteAnchors_c1 (specs : List PageSpec)
    (hwf : ∀ p ∈ specs, WFPage p)
    (hdist : List.Pairwise (fun p q => p.pg ≠ q.pg) specs) :
    processFootnoteAnchors (c1Stripped specs) (c1Recs 0 specs) false =
      .ok ((c1OutPages 0 specs ++ [[]], c1RecsD 0 (2 * specs.length) specs,
        specs.length), []) := by
  rw [processFootnoteAnchors]
  obtain ⟨st2, heq, hbuf2, hfns2, hcount2, herrs2⟩ :=
    anchorLoopF_c1 specs ((c1Stripped specs).length + 1) 0 [] []
      { buf := c1Stripped specs
        fns := c1Recs 0 specs
        csp := none
        fnIDs := []
        atp := none
        count := 0
        errs := [] }
      hwf hdist (by simp)
      (by rw [c1Stripped]; simp)
      (by show c1Recs 0 specs = [] ++ c1Recs (3 * 0) specs; simp)
      rfl rfl rfl rfl
      (by
        show 2 * specs.length + 2 ≤ (c1Stripped specs).length + 1
        rw [c1Stripped]
        simp only [List.length_append, List.length_cons, List.length_nil,
          strippedJoin_length]
        omega)
  rw [show (2 : Nat) * 0 = 0 from rfl] at heq
  rw [heq]
  dsimp only
  rw [hbuf2, hfns2, hcount2, herrs2]
  simp

theorem join_eq_flatten (xs : List (List Line)) : xs.join = xs.flatten := rfl

theorem bookendBlocks_c1 (specs : List PageSpec) :
    ∀ (j n pe : Nat),
    ((List.enumFrom j (c1RecsD n pe specs)).map
      (fun q => fnHeadPg (q.1 + 1) q.2 :: q.2.fnText ++ [strL ".fn-"])).join =
    ((List.enumFrom j specs).map (fun q => c1Block q.1 q.2)).join := by
  induction specs with
  | nil => intro j n pe; rfl
  | cons p rest ih =>
    intro j n pe
    rw [c1RecsD]
    simp only [List.enumFrom, List.map_cons, join_eq_flatten, List.flatten_cons]
    have ih2 := ih (j + 1) (n + 3) pe
    simp only [join_eq_flatten] at ih2
    rw [ih2]
    simp [fnHeadPg, pageL, c1Block, c1RecD, c1Rec]

theorem c1OutPages_enumFrom (specs : List PageSpec) :
    ∀ k, c1OutPages k specs =
      ((List.enumFrom k specs).map (fun q => mkOutPage q.2 (q.1 + 1))).join := by
  induction specs with
  | nil => intro k; rfl
  | cons p rest ih =>
    intro k
    rw [c1OutPages]
    simp only [List.enumFrom, List.map_cons, join_eq_flatten, List.flatten_cons]
    have ih2 := ih (k + 1)
    simp only [join_eq_flatten] at ih2
    rw [ih2]
    simp [mkOutPage]

/-- C1: on every document made of well-formed pages — each page a scan page
break, one text line with the page's single bracketed anchor, and one
single-line footnote block — with pairwise distinct scan pages, the full
footnote engine with destination bookend succeeds with no logged error and
produces exactly the expected output: every anchor rewritten to its 1-based
sequence number in document order, all footnote blocks removed, and the
directive blocks `.fn 1 .. .fn N` with the source bodies appended at the end
of the book. -/
theorem c1_pipeline_bookend (specs : List PageSpec)
    (hwf : ∀ p ∈ specs, WFPage p)
    (hdist : List.Pairwise (fun p q => p.pg ≠ q.pg) specs) :
    processFootnotes (mkDoc specs) "bookend" false "" "" false =
      .ok (c1Expected specs, []) := by
  have hgen : ∀ (b3 : List Line) (f2 : List FNRec),
      generatePpgenFootnoteMarkup b3 f2 "bookend" "" "" false =
        .ok (b3 ++ bookendMarkup f2, []) := by
    intro b3 f2
    rw [generatePpgenFootnoteMarkup]
    dsimp only
    rw [if_pos rfl]
  cases specs with
  | nil => decide
  | cons p0 rest0 =>
    rw [processFootnotes]
    rw [show mkDoc (p0 :: rest0) =
      (((p0 :: rest0).map mkPage).join ++ [[]]) from rfl]
    rw [stripBlanksLoop_c1 _ [] hwf]
    dsimp only
    simp only [List.nil_append]
    rw [parseFootnotes_c1 _ hwf]
    dsimp only
    rw [show (if ("bookend" : String) ≠ "inplace" then
        stripFootnoteMarkup (((p0 :: rest0).map mkPage).join ++ [[]])
      else .ok (((p0 :: rest0).map mkPage).join ++ [[]])) =
      stripFootnoteMarkup (((p0 :: rest0).map mkPage).join ++ [[]])
      from if_pos (by decide)]
    rw [stripFootnoteMarkup_c1 _ hwf]
    dsimp only
    rw [processFootnoteAnchors_c1 _ hwf hdist]
    dsimp only
    rw [if_pos (by rw [c1RecsD_length]; simp)]
    rw [hgen]
    dsimp only
    rw [if_neg (by decide)]
    rw [if_neg (by rw [c1RecsD_length]; simp)]
    rw [c1Expected]
    rw [if_neg (by simp)]
    rw [bookendMarkup]
    rw [show ((p0 :: rest0) : List PageSpec).enum =
      List.enumFrom 0 (p0 :: rest0) from rfl]
    rw [show (c1RecsD 0 (2 * ((p0 :: rest0) : List PageSpec).length)
        (p0 :: rest0)).enum =
      List.enumFrom 0 (c1RecsD 0 (2 * ((p0 :: rest0) : List PageSpec).length)
        (p0 :: rest0)) from rfl]
    rw [bookendBlocks_c1, c1OutPages_enumFrom]
    simp

/-- Witness for C1: a concrete two-page document — anchors `[A]`, `[B]`,
one footnote per page — runs through the whole engine with no error and
yields the expected renumbered output. -/
theorem c1_pipeline_bookend_witness :
    processFootnotes
      (mkDoc [{ pg := strL "001.png"
                pre := strL "t "
                post := strL "."
                id := strL "A"
                body := strL "x" },
              { pg := strL "002.png"
                pre := strL "u "
                post := strL "."
                id := strL "B"
                body := strL "y" }]) "bookend" false "" "" false =
      .ok (c1Expected [{ pg := strL "001.png"
                         pre := strL "t "
                         post := strL "."
                         id := strL "A"
                         body := strL "x" },
                       { pg := strL "002.png"
                         pre := strL "u "
                         post := strL "."
                         id := strL "B"
                         body := strL "y" }], []) :=
  c1_pipeline_bookend _ (by decide) (by decide)
